import Mathlib

/-!
Verification development for `checkDataQuality.py` of
wmde/wikidata-constraints-violation-checker.

The script aggregates quality signals for Wikidata items: statement counts,
constraint-violation counts, sitelink counts and an ORES quality score,
batch by batch, writing one CSV row per surviving item.

The definitions below are a shallow embedding of that script.  Remote calls
are modelled by a `RemoteEnv` of response oracles (the script treats the four
services as black boxes behind fixed request/response shapes); Python dicts
with a statically known key set become structures with `Option` fields (a
`none` field models an absent key, so reading it models a `KeyError`);
mutation becomes explicit state passing; `raise`/uncaught exceptions become
`Except.error`.  Rational numbers stand in for Python floats: every numeric
claim proved here concerns exact arithmetic, not rounding noise of binary
floating point.
-/

/-! ## Constraint-check response structure (`wbcheckconstraints`)

The response is, per item, a `claims` value: a dict keyed by property id
mapping to statement groups, or -- when the item has no claims at all -- an
empty JSON list.  Each statement carries a mainsnak with a list of check
results, optionally a `qualifiers` dict (property id, then a list of checks,
each with a list of results) and optionally a `references` list (each with a
`snaks` dict of the same nesting). -/

/-- One individual constraint-check result entry; only its `status` string is
read by the script. -/
structure CheckResult where
  status : String
deriving Repr, DecidableEq

/-- A snak-level check object carrying a `results` list (the shape read at
`statement['mainsnak']`, at each qualifier check and at each reference
check). -/
structure ConstraintCheck where
  results : List CheckResult
deriving Repr, DecidableEq

/-- One entry of a statement's `references` list: a `snaks` dict keyed by
property id. -/
structure ReferenceItem where
  snaks : List (String × List ConstraintCheck)
deriving Repr, DecidableEq

/-- One statement of a statement group.  `qualifiers`/`references` are
`Option` because the script tests key membership before reading them. -/
structure WdStatement where
  mainsnak : ConstraintCheck
  qualifiers : Option (List (String × List ConstraintCheck))
  references : Option (List ReferenceItem)
deriving Repr, DecidableEq

/-- The `claims` field of one item's constraint-check response.  The remote
API returns a dict keyed by property id, or an empty JSON list when the item
has no claims; `parseItemCheck` branches only on whether the value is a dict
(`if not type(claims) is dict`), so every non-dict value is one constructor. -/
inductive WdClaims where
  | listRepr : WdClaims
  | dict : List (String × List WdStatement) → WdClaims
deriving Repr, DecidableEq

/-! ## `parseItemCheck` / `countResults` -/

/-- The `results` dictionary built by `parseItemCheck`.  Its key set is
static (four counters plus the `statement_is_violated` flag), so it is a
structure; `statement_is_violated` is `Option Bool`, `none` modelling the key
having been deleted by `del results['statement_is_violated']`. -/
structure CheckCounts where
  violations_mandatory : Nat
  violations_normal : Nat
  violations_suggestion : Nat
  violated_statements : Nat
  statement_is_violated : Option Bool
deriving Repr, DecidableEq

/-- The initial `results` dictionary of `parseItemCheck`: all counters zero,
`statement_is_violated` present and `False`. -/
def initialCounts : CheckCounts :=
  { violations_mandatory := 0
    violations_normal := 0
    violations_suggestion := 0
    violated_statements := 0
    statement_is_violated := some false }

/-- The severity tally of `countResults`: `violation` bumps the mandatory
counter, `warning` the normal one, `suggestion` the suggestion one; any other
status bumps no severity counter. -/
def bumpSeverity (status : String) (results : CheckCounts) : CheckCounts :=
  if status = "violation" then
    { results with violations_mandatory := results.violations_mandatory + 1 }
  else if status = "warning" then
    { results with violations_normal := results.violations_normal + 1 }
  else if status = "suggestion" then
    { results with violations_suggestion := results.violations_suggestion + 1 }
  else results

/-- The final block of `countResults`: if the per-statement flag is (present
and) `False`, set it and bump `violated_statements`.  Note the source runs
this for every non-ignored status, clean statuses included. -/
def flagStatement (results : CheckCounts) : CheckCounts :=
  if results.statement_is_violated = some false then
    { results with
        statement_is_violated := some true
        violated_statements := results.violated_statements + 1 }
  else results

/-- `countResults(status, results)`: `bad-parameters` is ignored entirely
(early return); otherwise the severity tally runs, then the per-statement
flag block. -/
def countResults (status : String) (results : CheckCounts) : CheckCounts :=
  if status = "bad-parameters" then results
  else flagStatement (bumpSeverity status results)

/-- Fold `countResults` over a list of statuses (the shape of every innermost
`for ... results = countResults(...)` loop of `parseItemCheck`). -/
def applyStatuses (statuses : List String) (results : CheckCounts) : CheckCounts :=
  statuses.foldl (fun acc s => countResults s acc) results

/-- One statement's walk inside `parseItemCheck`: reset the per-statement
flag, then fold over the mainsnak results, then (when present) over the
qualifier checks, then (when present) over the reference checks. -/
def parseStatement (results : CheckCounts) (statement : WdStatement) : CheckCounts :=
  let r0 := { results with statement_is_violated := some false }
  let r1 := statement.mainsnak.results.foldl (fun acc v => countResults v.status acc) r0
  let r2 :=
    match statement.qualifiers with
    | none => r1
    | some qs =>
        qs.foldl (fun acc q =>
          q.2.foldl (fun acc c =>
            c.results.foldl (fun acc v => countResults v.status acc) acc) acc) r1
  match statement.references with
  | none => r2
  | some refs =>
      refs.foldl (fun acc ref =>
        ref.snaks.foldl (fun acc sn =>
          sn.2.foldl (fun acc c =>
            c.results.foldl (fun acc v => countResults v.status acc) acc) acc) acc) r2

/-- `parseItemCheck(jsonConstraintCheckResponse)`: non-dict claims return the
initial dictionary immediately (before the `del`, so the flag key is still
present); a dict of statement groups is walked statement by statement and the
flag key is deleted at the end. -/
def parseItemCheck (claims : WdClaims) : CheckCounts :=
  match claims with
  | .listRepr => initialCounts
  | .dict cs =>
      let results := cs.foldl (fun acc g => g.2.foldl parseStatement acc) initialCounts
      { results with statement_is_violated := none }

/-! ## Characterising the statement walk -/

/-- A status is ignored by `countResults` exactly when it is
`bad-parameters`. -/
def nonIgnoredStatus (s : String) : Bool := !(s = "bad-parameters")

/-- The statuses of one check object, in walk order. -/
def checkStatuses (c : ConstraintCheck) : List String :=
  c.results.map CheckResult.status

/-- All statuses under one statement, in the order `parseStatement` visits
them: mainsnak, then qualifiers, then references. -/
def statementStatuses (statement : WdStatement) : List String :=
  checkStatuses statement.mainsnak
    ++ (match statement.qualifiers with
        | none => []
        | some qs => qs.flatMap (fun q => q.2.flatMap checkStatuses))
    ++ (match statement.references with
        | none => []
        | some refs =>
            refs.flatMap (fun ref => ref.snaks.flatMap (fun sn => sn.2.flatMap checkStatuses)))

/-- All statements of a claims dict, in walk order. -/
def dictStatements (cs : List (String × List WdStatement)) : List WdStatement :=
  cs.flatMap Prod.snd

/-- All statuses of a claims dict, in walk order. -/
def dictStatuses (cs : List (String × List WdStatement)) : List String :=
  (dictStatements cs).flatMap statementStatuses

theorem applyStatuses_append (l1 l2 : List String) (r : CheckCounts) :
    applyStatuses (l1 ++ l2) r = applyStatuses l2 (applyStatuses l1 r) := by
  simp [applyStatuses, List.foldl_append]

theorem foldl_bind_eq {α β γ : Type} (f : α → List β) (step : γ → β → γ)
    (l : List α) (c : γ) :
    (l.flatMap f).foldl step c = l.foldl (fun acc x => (f x).foldl step acc) c := by
  induction l generalizing c with
  | nil => rfl
  | cons x xs ih => simp [List.foldl_append, ih]

theorem applyStatuses_bind {α : Type} (f : α → List String) (l : List α)
    (r : CheckCounts) :
    applyStatuses (l.flatMap f) r
      = l.foldl (fun acc x => applyStatuses (f x) acc) r := by
  simpa [applyStatuses] using
    foldl_bind_eq f (fun acc s => countResults s acc) l r

/-- `parseStatement` equals folding `countResults` over the statement's
flattened status list, after resetting the per-statement flag. -/
theorem parseStatement_eq (r : CheckCounts) (st : WdStatement) :
    parseStatement r st
      = applyStatuses (statementStatuses st)
          { r with statement_is_violated := some false } := by
  unfold parseStatement statementStatuses
  rw [applyStatuses_append, applyStatuses_append]
  cases hq : st.qualifiers with
  | none =>
      cases hr : st.references with
      | none => simp [applyStatuses, checkStatuses, List.foldl_map]
      | some refs =>
          simp only [applyStatuses_bind]
          simp [applyStatuses, checkStatuses, List.foldl_map, applyStatuses_bind]
  | some qs =>
      cases hr : st.references with
      | none =>
          simp only [applyStatuses_bind]
          simp [applyStatuses, checkStatuses, List.foldl_map, applyStatuses_bind]
      | some refs =>
          simp only [applyStatuses_bind]
          simp [applyStatuses, checkStatuses, List.foldl_map, applyStatuses_bind]

example :
    parseItemCheck (.dict [("P1", [⟨⟨[⟨"violation"⟩, ⟨"warning"⟩]⟩, none, none⟩])])
      = ⟨1, 1, 0, 1, none⟩ := by decide

example :
    parseItemCheck (.dict [("P1", [⟨⟨[⟨"compliance"⟩]⟩, none, none⟩])])
      = ⟨0, 0, 0, 1, none⟩ := by decide

theorem bumpSeverity_violated (s : String) (r : CheckCounts) :
    (bumpSeverity s r).violated_statements = r.violated_statements := by
  unfold bumpSeverity; split_ifs <;> rfl

theorem bumpSeverity_flag (s : String) (r : CheckCounts) :
    (bumpSeverity s r).statement_is_violated = r.statement_is_violated := by
  unfold bumpSeverity; split_ifs <;> rfl

theorem bumpSeverity_mandatory (s : String) (r : CheckCounts) :
    (bumpSeverity s r).violations_mandatory
      = r.violations_mandatory + (if s = "violation" then 1 else 0) := by
  unfold bumpSeverity; split_ifs <;> rfl

theorem bumpSeverity_normal (s : String) (r : CheckCounts) :
    (bumpSeverity s r).violations_normal
      = r.violations_normal + (if s = "warning" then 1 else 0) := by
  unfold bumpSeverity; split_ifs <;> simp_all

theorem bumpSeverity_suggestion (s : String) (r : CheckCounts) :
    (bumpSeverity s r).violations_suggestion
      = r.violations_suggestion + (if s = "suggestion" then 1 else 0) := by
  unfold bumpSeverity; split_ifs <;> simp_all

theorem flagStatement_mandatory (r : CheckCounts) :
    (flagStatement r).violations_mandatory = r.violations_mandatory := by
  unfold flagStatement; split_ifs <;> rfl

theorem flagStatement_normal (r : CheckCounts) :
    (flagStatement r).violations_normal = r.violations_normal := by
  unfold flagStatement; split_ifs <;> rfl

theorem flagStatement_suggestion (r : CheckCounts) :
    (flagStatement r).violations_suggestion = r.violations_suggestion := by
  unfold flagStatement; split_ifs <;> rfl

theorem countResults_mandatory (s : String) (r : CheckCounts) :
    (countResults s r).violations_mandatory
      = r.violations_mandatory + (if s = "violation" then 1 else 0) := by
  unfold countResults
  by_cases h : s = "bad-parameters"
  · subst h; simp
  · rw [if_neg h, flagStatement_mandatory, bumpSeverity_mandatory]

theorem countResults_normal (s : String) (r : CheckCounts) :
    (countResults s r).violations_normal
      = r.violations_normal + (if s = "warning" then 1 else 0) := by
  unfold countResults
  by_cases h : s = "bad-parameters"
  · subst h; simp
  · rw [if_neg h, flagStatement_normal, bumpSeverity_normal]

theorem countResults_suggestion (s : String) (r : CheckCounts) :
    (countResults s r).violations_suggestion
      = r.violations_suggestion + (if s = "suggestion" then 1 else 0) := by
  unfold countResults
  by_cases h : s = "bad-parameters"
  · subst h; simp
  · rw [if_neg h, flagStatement_suggestion, bumpSeverity_suggestion]

/-- With the flag already set, a further result never touches the
violated-statement tally and leaves the flag set. -/
theorem countResults_flag_true (s : String) (r : CheckCounts)
    (h : r.statement_is_violated = some true) :
    (countResults s r).statement_is_violated = some true ∧
      (countResults s r).violated_statements = r.violated_statements := by
  unfold countResults flagStatement
  split_ifs with h1 h2
  · exact ⟨h, rfl⟩
  · rw [bumpSeverity_flag] at h2; simp [h] at h2
  · rw [bumpSeverity_flag, bumpSeverity_violated]; exact ⟨h, rfl⟩

/-- With the flag still clear, one result sets the flag and bumps the tally
exactly when its status is not ignored. -/
theorem countResults_flag_false (s : String) (r : CheckCounts)
    (h : r.statement_is_violated = some false) :
    (countResults s r).statement_is_violated = some (nonIgnoredStatus s) ∧
      (countResults s r).violated_statements
        = r.violated_statements + (if nonIgnoredStatus s then 1 else 0) := by
  unfold countResults
  by_cases h1 : s = "bad-parameters"
  · rw [if_pos h1]
    simp [nonIgnoredStatus, h1, h]
  · rw [if_neg h1]
    have hb : (bumpSeverity s r).statement_is_violated = some false := by
      rw [bumpSeverity_flag]; exact h
    have hnv : (bumpSeverity s r).violated_statements = r.violated_statements :=
      bumpSeverity_violated s r
    unfold flagStatement
    rw [if_pos hb]
    simp [nonIgnoredStatus, h1, hnv]

theorem applyStatuses_mandatory (l : List String) (r : CheckCounts) :
    (applyStatuses l r).violations_mandatory
      = r.violations_mandatory + l.countP (fun s => s = "violation") := by
  induction l generalizing r with
  | nil => simp [applyStatuses]
  | cons s l ih =>
      show (applyStatuses l (countResults s r)).violations_mandatory = _
      rw [ih, countResults_mandatory, List.countP_cons]
      by_cases h : s = "violation" <;> simp [h] <;> omega

theorem applyStatuses_normal (l : List String) (r : CheckCounts) :
    (applyStatuses l r).violations_normal
      = r.violations_normal + l.countP (fun s => s = "warning") := by
  induction l generalizing r with
  | nil => simp [applyStatuses]
  | cons s l ih =>
      show (applyStatuses l (countResults s r)).violations_normal = _
      rw [ih, countResults_normal, List.countP_cons]
      by_cases h : s = "warning" <;> simp [h] <;> omega

theorem applyStatuses_suggestion (l : List String) (r : CheckCounts) :
    (applyStatuses l r).violations_suggestion
      = r.violations_suggestion + l.countP (fun s => s = "suggestion") := by
  induction l generalizing r with
  | nil => simp [applyStatuses]
  | cons s l ih =>
      show (applyStatuses l (countResults s r)).violations_suggestion = _
      rw [ih, countResults_suggestion, List.countP_cons]
      by_cases h : s = "suggestion" <;> simp [h] <;> omega

theorem applyStatuses_flag_true (l : List String) (r : CheckCounts)
    (h : r.statement_is_violated = some true) :
    (applyStatuses l r).statement_is_violated = some true ∧
      (applyStatuses l r).violated_statements = r.violated_statements := by
  induction l generalizing r with
  | nil => exact ⟨h, rfl⟩
  | cons s l ih =>
      have hc := countResults_flag_true s r h
      have ht := ih (countResults s r) hc.1
      refine ⟨?_, ?_⟩
      · show (applyStatuses l (countResults s r)).statement_is_violated = some true
        exact ht.1
      · show (applyStatuses l (countResults s r)).violated_statements
            = r.violated_statements
        rw [ht.2, hc.2]

/-- Starting from a clear flag, a run of results bumps the violated-statement
tally by one exactly when some status in it is non-ignored -- whether or not
any status is a violation. -/
theorem applyStatuses_flag_false (l : List String) (r : CheckCounts)
    (h : r.statement_is_violated = some false) :
    (applyStatuses l r).statement_is_violated = some (l.any nonIgnoredStatus) ∧
      (applyStatuses l r).violated_statements
        = r.violated_statements + (if l.any nonIgnoredStatus then 1 else 0) := by
  induction l generalizing r with
  | nil => simp [applyStatuses, h]
  | cons s l ih =>
      have hc := countResults_flag_false s r h
      by_cases hs : nonIgnoredStatus s
      · have hflag : (countResults s r).statement_is_violated = some true := by
          rw [hc.1, hs]
        have ht := applyStatuses_flag_true l (countResults s r) hflag
        refine ⟨?_, ?_⟩
        · show (applyStatuses l (countResults s r)).statement_is_violated = _
          rw [ht.1]; simp [hs]
        · show (applyStatuses l (countResults s r)).violated_statements = _
          rw [ht.2, hc.2]; simp [hs]
      · have hflag : (countResults s r).statement_is_violated = some false := by
          rw [hc.1]; simp [Bool.not_eq_true] at hs; rw [hs]
        have ht := ih (countResults s r) hflag
        refine ⟨?_, ?_⟩
        · show (applyStatuses l (countResults s r)).statement_is_violated = _
          rw [ht.1]; simp [Bool.not_eq_true] at hs; simp [hs]
        · show (applyStatuses l (countResults s r)).violated_statements = _
          rw [ht.2, hc.2]
          simp [Bool.not_eq_true] at hs; simp [hs]

/-- Full characterisation of one statement's walk. -/
theorem parseStatement_spec (r : CheckCounts) (st : WdStatement) :
    (parseStatement r st).violations_mandatory
        = r.violations_mandatory + (statementStatuses st).countP (fun s => s = "violation") ∧
      (parseStatement r st).violations_normal
        = r.violations_normal + (statementStatuses st).countP (fun s => s = "warning") ∧
      (parseStatement r st).violations_suggestion
        = r.violations_suggestion + (statementStatuses st).countP (fun s => s = "suggestion") ∧
      (parseStatement r st).violated_statements
        = r.violated_statements
            + (if (statementStatuses st).any nonIgnoredStatus then 1 else 0) ∧
      (parseStatement r st).statement_is_violated
        = some ((statementStatuses st).any nonIgnoredStatus) := by
  rw [parseStatement_eq]
  have hflag := applyStatuses_flag_false (statementStatuses st)
    { r with statement_is_violated := some false } rfl
  exact ⟨applyStatuses_mandatory _ _, applyStatuses_normal _ _,
    applyStatuses_suggestion _ _, hflag.2, hflag.1⟩

theorem foldStatements_spec (sts : List WdStatement) (r : CheckCounts) :
    (sts.foldl parseStatement r).violations_mandatory
        = r.violations_mandatory
            + (sts.flatMap statementStatuses).countP (fun s => s = "violation") ∧
      (sts.foldl parseStatement r).violations_normal
        = r.violations_normal
            + (sts.flatMap statementStatuses).countP (fun s => s = "warning") ∧
      (sts.foldl parseStatement r).violations_suggestion
        = r.violations_suggestion
            + (sts.flatMap statementStatuses).countP (fun s => s = "suggestion") ∧
      (sts.foldl parseStatement r).violated_statements
        = r.violated_statements
            + (sts.filter (fun st => (statementStatuses st).any nonIgnoredStatus)).length := by
  induction sts generalizing r with
  | nil => simp
  | cons st sts ih =>
      have hst := parseStatement_spec r st
      have := ih (parseStatement r st)
      refine ⟨?_, ?_, ?_, ?_⟩
      · show (sts.foldl parseStatement (parseStatement r st)).violations_mandatory = _
        rw [this.1, hst.1]; simp [List.countP_append]; omega
      · show (sts.foldl parseStatement (parseStatement r st)).violations_normal = _
        rw [this.2.1, hst.2.1]; simp [List.countP_append]; omega
      · show (sts.foldl parseStatement (parseStatement r st)).violations_suggestion = _
        rw [this.2.2.1, hst.2.2.1]; simp [List.countP_append]; omega
      · show (sts.foldl parseStatement (parseStatement r st)).violated_statements = _
        rw [this.2.2.2, hst.2.2.2.1]
        by_cases h : (statementStatuses st).any nonIgnoredStatus <;> simp [h] <;> omega

theorem parseItemCheck_dict_eq (cs : List (String × List WdStatement)) :
    parseItemCheck (.dict cs)
      = { (dictStatements cs).foldl parseStatement initialCounts with
            statement_is_violated := none } := by
  unfold parseItemCheck dictStatements
  rw [foldl_bind_eq]

/-- C2 (amended): over a claims dict, `violated_statements` counts exactly the
statements having at least one non-ignored result status -- of any kind,
clean statuses included; the severity counters count every occurrence of
their own status across all results.  In particular the tally is bumped at
most once per statement however many non-clean results it has. -/
theorem parseItemCheck_dict_characterization (cs : List (String × List WdStatement)) :
    (parseItemCheck (.dict cs)).violated_statements
        = ((dictStatements cs).filter
            (fun st => (statementStatuses st).any nonIgnoredStatus)).length ∧
      (parseItemCheck (.dict cs)).violations_mandatory
        = (dictStatuses cs).countP (fun s => s = "violation") ∧
      (parseItemCheck (.dict cs)).violations_normal
        = (dictStatuses cs).countP (fun s => s = "warning") ∧
      (parseItemCheck (.dict cs)).violations_suggestion
        = (dictStatuses cs).countP (fun s => s = "suggestion") := by
  rw [parseItemCheck_dict_eq]
  have h := foldStatements_spec (dictStatements cs) initialCounts
  refine ⟨?_, ?_, ?_, ?_⟩
  · simpa [initialCounts, dictStatuses] using h.2.2.2
  · simpa [initialCounts, dictStatuses] using h.1
  · simpa [initialCounts, dictStatuses] using h.2.1
  · simpa [initialCounts, dictStatuses] using h.2.2.1

/-- C2 counterexample: a statement whose single check result carries the
clean status `compliance` (no violation, warning or suggestion anywhere, as
the zero severity counters show) is still tallied once in
`violated_statements`, because `countResults` flips the per-statement flag
for every status other than `bad-parameters`. -/
theorem parseItemCheck_clean_statement_counted :
    parseItemCheck (.dict [("P1", [⟨⟨[⟨"compliance"⟩]⟩, none, none⟩])])
        = ⟨0, 0, 0, 1, none⟩ ∧
      statementStatuses ⟨⟨[⟨"compliance"⟩]⟩, none, none⟩ = ["compliance"] := by
  decide

/-- C6: the empty-list representation of `claims` parses to all four
violation counters at zero; `parseItemCheck` is a total function on
`WdClaims`, so no error is raised on this representation (the source returns
early before touching the statement walk). -/
theorem parseItemCheck_emptyList_zero :
    (parseItemCheck WdClaims.listRepr).violations_mandatory = 0 ∧
      (parseItemCheck WdClaims.listRepr).violations_normal = 0 ∧
      (parseItemCheck WdClaims.listRepr).violations_suggestion = 0 ∧
      (parseItemCheck WdClaims.listRepr).violated_statements = 0 := by
  decide

/-- C10: the empty-list branch of `parseItemCheck` returns before the
`del results['statement_is_violated']` line, so its result still carries the
flag key (present, `False`), while every dict-parsed result has the key
deleted. -/
theorem parseItemCheck_flag_leak :
    (parseItemCheck WdClaims.listRepr).statement_is_violated = some false ∧
      ∀ cs : List (String × List WdStatement),
        (parseItemCheck (.dict cs)).statement_is_violated = none :=
  ⟨rfl, fun _ => rfl⟩

/-! ## ORES quality score (`fetchOresScore` arithmetic) -/

/-- The five ORES item-quality classes (probability keys of a score). -/
inductive OresClass where
  | E | D | C | B | A
deriving Repr, DecidableEq

/-- `ORES_WEIGHTS` from the source: the lowest class E weighs 1, up to the
highest class A weighing 5. -/
def ORES_WEIGHTS : OresClass → ℚ
  | .E => 1
  | .D => 2
  | .C => 3
  | .B => 4
  | .A => 5

/-- The probability mapping of one score (`score['itemquality']['score']
['probability']`): class label and probability, in the dict's key order. -/
abbrev OresProbability := List (OresClass × ℚ)

/-- The weighted-sum loop of `fetchOresScore`: walk the probability mapping
in key order, skip falsy (zero) probabilities, and accumulate probability
times class weight. -/
def weightedSum (probability : OresProbability) : ℚ :=
  probability.foldl
    (fun acc xp => if xp.2 ≠ 0 then acc + xp.2 * ORES_WEIGHTS xp.1 else acc) 0

/-- Python's `round(x, 2)` in exact arithmetic: an integer number of
hundredths, here as floor of the half-up shift so that the definition
evaluates in the kernel.  (No property proved below depends on the
tie-breaking mode, so the difference between round-half-even on floats and
this rounding is immaterial here.) -/
def round2 (q : ℚ) : ℚ := ((Rat.floor (q * 100 + 1 / 2) : ℤ) : ℚ) / 100

theorem round2_eq_round (q : ℚ) : round2 q = ((round (q * 100) : ℤ) : ℚ) / 100 := by
  have hfl : Rat.floor (q * 100 + 1 / 2) = ⌊q * 100 + 1 / 2⌋ :=
    (Rat.floor_def' _).trans Rat.floor_def.symm
  rw [round2, hfl, round_eq]

/-- The `ores_score` value stored per item by `fetchOresScore`. -/
def oresScore (probability : OresProbability) : ℚ :=
  round2 (weightedSum probability)

/-- Skipping the zero entries does not change the accumulated sum: the loop
computes the plain weighted sum of the mapping. -/
theorem weightedSum_eq_sum (ps : OresProbability) :
    weightedSum ps = (ps.map (fun xp => xp.2 * ORES_WEIGHTS xp.1)).sum := by
  have key : ∀ (l : OresProbability) (acc : ℚ),
      l.foldl (fun acc xp => if xp.2 ≠ 0 then acc + xp.2 * ORES_WEIGHTS xp.1 else acc) acc
        = acc + (l.map (fun xp => xp.2 * ORES_WEIGHTS xp.1)).sum := by
    intro l
    induction l with
    | nil => intro acc; simp
    | cons xp l ih =>
        intro acc
        have hstep :
            (if xp.2 ≠ 0 then acc + xp.2 * ORES_WEIGHTS xp.1 else acc)
              = acc + xp.2 * ORES_WEIGHTS xp.1 := by
          by_cases h : xp.2 = 0 <;> simp [h]
        show List.foldl _ (if xp.2 ≠ 0 then acc + xp.2 * ORES_WEIGHTS xp.1 else acc) l = _
        rw [hstep, ih]
        simp [add_assoc]
  show List.foldl
      (fun acc xp => if xp.2 ≠ 0 then acc + xp.2 * ORES_WEIGHTS xp.1 else acc) 0 ps
    = (ps.map (fun xp => xp.2 * ORES_WEIGHTS xp.1)).sum
  rw [key ps 0, zero_add]

theorem ORES_WEIGHTS_bounds (x : OresClass) :
    1 ≤ ORES_WEIGHTS x ∧ ORES_WEIGHTS x ≤ 5 := by
  cases x <;> constructor <;> norm_num [ORES_WEIGHTS]

theorem round2_bounds (q : ℚ) (h1 : 1 ≤ q) (h5 : q ≤ 5) :
    1 ≤ round2 q ∧ round2 q ≤ 5 := by
  have h100 : (0:ℚ) < 100 := by norm_num
  have hlo : (100 : ℤ) ≤ round (q * 100) := by
    rw [round_eq, Int.le_floor]
    push_cast
    linarith
  have hhi : round (q * 100) ≤ (500 : ℤ) := by
    rw [round_eq, Int.floor_le_iff]
    push_cast
    linarith
  constructor
  · rw [round2_eq_round, le_div_iff₀ h100]
    have h : ((100 : ℤ) : ℚ) ≤ ((round (q * 100) : ℤ) : ℚ) := by exact_mod_cast hlo
    push_cast at h
    linarith
  · rw [round2_eq_round, div_le_iff₀ h100]
    have h : ((round (q * 100) : ℤ) : ℚ) ≤ ((500 : ℤ) : ℚ) := by exact_mod_cast hhi
    push_cast at h
    linarith

/-- C7: the stored score is the weighted sum (weights 1..5) rounded to two
decimals; it is invariant under any permutation of the probability mapping's
key order; and it lies in [1, 5] whenever the probabilities are non-negative
and sum to 1. -/
theorem oresScore_weighted_bounds (ps qs : OresProbability)
    (hperm : ps.Perm qs)
    (hnn : ∀ xp ∈ ps, 0 ≤ xp.2)
    (hsum : (ps.map Prod.snd).sum = 1) :
    oresScore ps = round2 ((ps.map (fun xp => xp.2 * ORES_WEIGHTS xp.1)).sum) ∧
      oresScore ps = oresScore qs ∧
      1 ≤ oresScore ps ∧ oresScore ps ≤ 5 := by
  have hsum_eq : weightedSum ps = weightedSum qs := by
    rw [weightedSum_eq_sum, weightedSum_eq_sum]
    exact (hperm.map (fun xp => xp.2 * ORES_WEIGHTS xp.1)).sum_eq
  have hlo : 1 ≤ weightedSum ps := by
    rw [weightedSum_eq_sum]
    have step : (ps.map Prod.snd).sum ≤ (ps.map (fun xp => xp.2 * ORES_WEIGHTS xp.1)).sum := by
      apply List.sum_le_sum
      intro xp hxp
      have := (ORES_WEIGHTS_bounds xp.1).1
      have := hnn xp hxp
      nlinarith
    linarith [hsum ▸ step]
  have hhi : weightedSum ps ≤ 5 := by
    rw [weightedSum_eq_sum]
    have step : (ps.map (fun xp => xp.2 * ORES_WEIGHTS xp.1)).sum
        ≤ (ps.map (fun xp => xp.2 * 5)).sum := by
      apply List.sum_le_sum
      intro xp hxp
      have := (ORES_WEIGHTS_bounds xp.1).2
      have := hnn xp hxp
      nlinarith
    have collect : (ps.map (fun xp => xp.2 * 5)).sum = (ps.map Prod.snd).sum * 5 :=
      List.sum_map_mul_right ps Prod.snd 5
    rw [collect, hsum] at step
    linarith
  have hb := round2_bounds (weightedSum ps) hlo hhi
  refine ⟨?_, by rw [oresScore, oresScore, hsum_eq], hb.1, hb.2⟩
  rw [oresScore, weightedSum_eq_sum]

/-- Witness for C7 at the concrete distribution putting all mass on the
lowest class E, against its reversed key order. -/
theorem oresScore_weighted_bounds_witness :
    1 ≤ oresScore [(OresClass.E, 1), (OresClass.D, 0), (OresClass.C, 0),
        (OresClass.B, 0), (OresClass.A, 0)] ∧
      oresScore [(OresClass.E, 1), (OresClass.D, 0), (OresClass.C, 0),
          (OresClass.B, 0), (OresClass.A, 0)]
        = oresScore [(OresClass.A, 0), (OresClass.B, 0), (OresClass.C, 0),
            (OresClass.D, 0), (OresClass.E, 1)] := by
  have h := oresScore_weighted_bounds
    [(OresClass.E, 1), (OresClass.D, 0), (OresClass.C, 0),
      (OresClass.B, 0), (OresClass.A, 0)]
    [(OresClass.A, 0), (OresClass.B, 0), (OresClass.C, 0),
      (OresClass.D, 0), (OresClass.E, 1)]
    (by decide) (by decide) (by norm_num)
  exact ⟨h.2.2.1, h.2.1⟩

/-! ## The per-batch result map and its stages

`batchOfResults` is a Python dict from item id to a per-item results dict.
The per-item dict's keys are statically known (each stage adds fixed keys),
so it is a structure of `Option` fields; `none` models an absent key.  Two
dynamic keys exist besides: `failed` (set by the fallback path) and -- an
artefact of the per-item retry path -- an entry keyed by the item's own id;
the latter is recorded in `selfEntries` (its value, a back-reference to the
record itself, is observed by nothing in the script). -/

structure ItemRecord where
  revid : Option Int
  statements : Option Nat
  total_sitelinks : Option Nat
  wikipedia_sitelinks : Option Nat
  violations_mandatory : Option Nat
  violations_normal : Option Nat
  violations_suggestion : Option Nat
  violated_statements : Option Nat
  statement_is_violated : Option Bool
  ores_score : Option ℚ
  failed : Option Bool
  selfEntries : List String
deriving Repr, DecidableEq

/-- The record created by `fetchNumberOfStatements` for a live item:
`{'revid': ..., 'statements': ...}`. -/
def baseRecord (revid : Int) (statements : Nat) : ItemRecord :=
  ⟨some revid, some statements, none, none, none, none, none, none, none, none, none, []⟩

/-- The batch dict: item id to record, in insertion order, keys unique. -/
abbrev BatchMap := List (String × ItemRecord)

def mapKeys (m : BatchMap) : List String := m.map Prod.fst

/-- `d[k]` as a total lookup. -/
def lookup? (m : BatchMap) (k : String) : Option ItemRecord :=
  (m.find? (fun kv => kv.1 = k)).map Prod.snd

/-- Mutating the record stored at an existing key (`d[k].update(...)` or
assignment through the alias): replace the binding in place. -/
def mapSet (m : BatchMap) (k : String) (v : ItemRecord) : BatchMap :=
  m.map (fun kv => if kv.1 = k then (kv.1, v) else kv)

/-- `d.update({k: v})`: replace an existing binding in place, else append. -/
def mapInsert (m : BatchMap) (k : String) (v : ItemRecord) : BatchMap :=
  if (lookup? m k).isSome then mapSet m k v else m ++ [(k, v)]

/-- `itemResults.update(constraintCheckResults)`: the parse result's keys
overwrite the record's corresponding fields; the flag key is only present on
the empty-claims parse path (where the `del` was skipped). -/
def ItemRecord.applyCheck (r : ItemRecord) (c : CheckCounts) : ItemRecord :=
  { r with
      violations_mandatory := some c.violations_mandatory
      violations_normal := some c.violations_normal
      violations_suggestion := some c.violations_suggestion
      violated_statements := some c.violated_statements
      statement_is_violated :=
        match c.statement_is_violated with
        | none => r.statement_is_violated
        | some b => some b }

/-- One page object of the statement-count query response.  `pageprops` is
`some n` when the page carries the `wb-claims` page prop with value `n`;
`revid` is `revisions[0].revid` (present for every live page per the
response contract of the lookup service). -/
structure WdPage where
  title : String
  pageprops : Option Nat
  revid : Int
deriving Repr, DecidableEq

/-- The four remote services as response oracles, each a function of the
request's identifier list.  An `Except.error`/`none` response models,
respectively, a raised transport or payload error and a response missing its
expected top-level container. -/
structure RemoteEnv where
  stmtResp : List String → Except String (List WdPage)
  siteResp : List String → Option (List (String × List String))
  checkResp : List String → Except String (List (String × WdClaims))
  oresResp : List String → Option (List (String × OresProbability))

/-! ### Stage 1: `fetchNumberOfStatements` -/

/-- The page loop of `fetchNumberOfStatements`: a page without `pageprops`
is logged as missing/redirected and skipped, a live page enters the batch
dict keyed by its title. -/
def stmtPages : List WdPage → BatchMap → List String → BatchMap × List String
  | [], acc, log => (acc, log)
  | p :: rest, acc, log =>
      match p.pageprops with
      | none =>
          stmtPages rest acc
            (log ++ ["Item " ++ p.title ++ " does not exist or is a redirect."])
      | some claims => stmtPages rest (mapInsert acc p.title (baseRecord p.revid claims)) log

/-- `fetchNumberOfStatements(itemIds)`: one batch call; a transport or
payload failure propagates as an exception; otherwise pages are folded into
a fresh batch dict, with missing/redirected ones logged and dropped. -/
def fetchNumberOfStatements (env : RemoteEnv) (itemIds : List String) :
    Except String (BatchMap × List String) :=
  match env.stmtResp itemIds with
  | .error e => .error e
  | .ok pages => .ok (stmtPages pages [] [])

/-! ### Stage 2: `fetchNumberOfSitelinks` -/

/-- Python's `str.endswith`, stated over the string's character list (the
core library's byte-position variant does not reduce in the kernel). -/
def strEndsWith (s post : String) : Bool := post.data.isSuffixOf s.data

/-- The Wikipedia-sitelink filter: project keys ending in `wiki`, minus the
two named non-language projects. -/
def isWikipediaSitelink (k : String) : Bool :=
  strEndsWith k "wiki" && !(k == "commonswiki" || k == "specieswiki")

/-- The per-item update of the sitelink enricher: total count is the size of
the `sitelinks` mapping, Wikipedia count the size of its filtered subset. -/
def siteUpdate (r : ItemRecord) (sitelinks : List String) : ItemRecord :=
  { r with
      total_sitelinks := some sitelinks.length
      wikipedia_sitelinks := some (sitelinks.filter isWikipediaSitelink).length }

/-- The entity loop of `fetchNumberOfSitelinks`; an entity whose id is not a
key of the batch dict raises a `KeyError` (`batchOfResults[itemId]`). -/
def siteEntities : List (String × List String) → BatchMap → Except String BatchMap
  | [], m => .ok m
  | ent :: rest, m =>
      match lookup? m ent.1 with
      | none => .error "KeyError"
      | some r => siteEntities rest (mapSet m ent.1 (siteUpdate r ent.2))

/-- `fetchNumberOfSitelinks(batchOfResults)`: raises when the response lacks
the `entities` container, else merges both sitelink counts into each listed
item's record. -/
def fetchNumberOfSitelinks (env : RemoteEnv) (m : BatchMap) : Except String BatchMap :=
  match env.siteResp (mapKeys m) with
  | none => .error "could not find sitelinks for items"
  | some entities => siteEntities entities m

/-! ### Stage 3: `checkConstraints` and the fallback protocol -/

/-- The response loop of `checkConstraints`: each listed item's claims are
parsed and merged into its record; an id that is not a key of the dict
raises (`batchOfResults[itemId]`).  The transport/status/error-payload
failures of the call itself arrive already folded into the `resp`
argument. -/
def checkEntries : List (String × WdClaims) → BatchMap → Except String BatchMap
  | [], m => .ok m
  | ent :: rest, m =>
      match lookup? m ent.1 with
      | none => .error "KeyError"
      | some r => checkEntries rest (mapSet m ent.1 (r.applyCheck (parseItemCheck ent.2)))

def checkConstraints (resp : Except String (List (String × WdClaims)))
    (m : BatchMap) : Except String BatchMap :=
  match resp with
  | .error e => .error e
  | .ok entries => checkEntries entries m

/-- Outcome of `checkQualityByItem`: the `{'failed': True}` marker, or the
singleton dict returned by the single-item `checkConstraints` call. -/
inductive ItemCheckOutcome where
  | failedMarker : ItemCheckOutcome
  | checked : BatchMap → ItemCheckOutcome

/-- `checkQualityByItem(itemId, itemResults)`: run `checkConstraints` on the
singleton dict; any exception is logged and turned into the failed marker. -/
def checkQualityByItem (env : RemoteEnv) (itemId : String) (r : ItemRecord) :
    ItemCheckOutcome × List String :=
  match checkConstraints (env.checkResp [itemId]) [(itemId, r)] with
  | .error e =>
      (.failedMarker, ["failed to check quality constraints on item " ++ itemId, e])
  | .ok m1 => (.checked m1, [])

/-- `batchOfItems[itemId].update(checkedItemResults)` after the per-item
retry.  On failure the marker sets the `failed` key.  On success the Python
record was already updated in place through the alias inside the single-item
`checkConstraints` call, so it equals the record stored in the returned
singleton dict; updating it with that dict then only adds the item-id-keyed
self entry. -/
def updateWithOutcome (itemId : String) (r : ItemRecord) :
    ItemCheckOutcome → ItemRecord
  | .failedMarker => { r with failed := some true }
  | .checked m1 =>
      let r1 := (lookup? m1 itemId).getD r
      { r1 with selfEntries := r1.selfEntries ++ [itemId] }

/-- The one-by-one loop of `checkQualityByBatch`: iterate over the batch
items, retry each individually, merge the outcome into its record. -/
def itemFallbackLoop (env : RemoteEnv) :
    List (String × ItemRecord) → BatchMap → List String → BatchMap × List String
  | [], acc, log => (acc, log)
  | kv :: rest, acc, log =>
      let step := checkQualityByItem env kv.1 kv.2
      itemFallbackLoop env rest (mapSet acc kv.1 (updateWithOutcome kv.1 kv.2 step.1))
        (log ++ step.2)

/-- `checkQualityByBatch(batchOfItems)`: try the whole batch in one call; on
any exception log the failure and fall back to the per-item loop.  Returns
the updated dict together with the error-log lines written. -/
def checkQualityByBatch (env : RemoteEnv) (m : BatchMap) : BatchMap × List String :=
  match checkConstraints (env.checkResp (mapKeys m)) m with
  | .ok m2 => (m2, [])
  | .error e =>
      itemFallbackLoop env m m
        ["failed to check quality constraints on items "
            ++ String.intercalate "|" (mapKeys m),
          "now checking them one-by-one", e]

/-! ### Stage 4: `fetchOresScore` -/

def strInsert (l : List (String × String)) (k v : String) : List (String × String) :=
  if l.any (fun kv => kv.1 = k) then
    l.map (fun kv => if kv.1 = k then (kv.1, v) else kv)
  else l ++ [(k, v)]

def strLookup (l : List (String × String)) (k : String) : Option String :=
  (l.find? (fun kv => kv.1 = k)).map Prod.snd

/-- The reverse dict `itemIds` of `fetchOresScore`: `str(revid)` to item id;
reading a missing `revid` key raises. -/
def revidIndex : BatchMap → List (String × String) → Except String (List (String × String))
  | [], acc => .ok acc
  | kv :: rest, acc =>
      match kv.2.revid with
      | none => .error "KeyError"
      | some rv => revidIndex rest (strInsert acc (toString rv) kv.1)

/-- The score loop of `fetchOresScore`: each returned revision's probability
distribution becomes a rounded weighted sum stored as `ores_score` on the
item found through the reverse dict; unknown revision ids or item ids
raise. -/
def oresScores (itemIds : List (String × String)) :
    List (String × OresProbability) → BatchMap → Except String BatchMap
  | [], m => .ok m
  | sc :: rest, m =>
      match strLookup itemIds sc.1 with
      | none => .error "KeyError"
      | some itemId =>
          match lookup? m itemId with
          | none => .error "KeyError"
          | some r =>
              oresScores itemIds rest
                (mapSet m itemId { r with ores_score := some (oresScore sc.2) })

/-- `fetchOresScore(batchOfItems)`: build the reverse revision-id dict, call
the scoring service once; a response without the `wikidatawiki` container is
logged and the batch returned unscored; otherwise merge each score. -/
def fetchOresScore (env : RemoteEnv) (m : BatchMap) :
    Except String (BatchMap × List String) :=
  match revidIndex m [] with
  | .error e => .error e
  | .ok itemIds =>
      match env.oresResp (itemIds.map Prod.fst) with
      | none =>
          .ok (m, ["no ORES scores found for items "
              ++ String.intercalate "|" (itemIds.map Prod.fst)])
      | some scores =>
          match oresScores itemIds scores m with
          | .error e => .error e
          | .ok m2 => .ok (m2, [])

/-! ### `printResults` and the batch loop of `main` -/

/-- Whether one record has every field `printResults` reads; a missing one
raises a `KeyError` while the output line is being built. -/
def rowComplete (r : ItemRecord) : Bool :=
  r.statements.isSome && r.violations_mandatory.isSome && r.violations_normal.isSome
    && r.violations_suggestion.isSome && r.violated_statements.isSome
    && r.total_sitelinks.isSome && r.wikipedia_sitelinks.isSome && r.ores_score.isSome

/-- `printResults(batchOfResults)`: walk the dict in order; a record with a
`failed` key is skipped; otherwise all nine fields are read (a missing one
raises, aborting the loop with earlier lines already written) and one line is
appended.  The model records each written line by the item id that keys it;
cell formatting plays no role in any claim. -/
def printResults : BatchMap → List String × Option String
  | [] => ([], none)
  | kv :: rest =>
      if kv.2.failed.isSome then printResults rest
      else if rowComplete kv.2 then
        ((kv.1 :: (printResults rest).1), (printResults rest).2)
      else ([], some "KeyError")

/-- One batch of `main`'s loop body: sitelinks, constraint checks (with the
embedded fallback), ORES scores.  `main` has no exception handling, so any
raise aborts the whole run. -/
def processBatch (env : RemoteEnv) (itemIds : List String) :
    Except String (BatchMap × List String) :=
  match fetchNumberOfStatements env itemIds with
  | .error e => .error e
  | .ok (m0, log0) =>
      match fetchNumberOfSitelinks env m0 with
      | .error e => .error e
      | .ok m1 =>
          match checkQualityByBatch env m1 with
          | (m2, log2) =>
              match fetchOresScore env m2 with
              | .error e => .error e
              | .ok (m3, log3) => .ok (m3, log0 ++ log2 ++ log3)

/-- The `async for` loop of `main` over the batches: each batch is processed
and printed in turn; an uncaught exception ends the run, keeping the rows
already written and processing no further batch. -/
def mainLoop (env : RemoteEnv) : List (List String) → List String × Option String
  | [] => ([], none)
  | ids :: rest =>
      match processBatch env ids with
      | .error e => ([], some e)
      | .ok (m3, _) =>
          match printResults m3 with
          | (rows, some e) => (rows, some e)
          | (rows, none) =>
              let tail := mainLoop env rest
              (rows ++ tail.1, tail.2)

/-! ## Dict lemmas -/

theorem lookup?_nil (k : String) : lookup? [] k = none := rfl

theorem lookup?_cons (kv : String × ItemRecord) (m : BatchMap) (k : String) :
    lookup? (kv :: m) k = if kv.1 = k then some kv.2 else lookup? m k := by
  by_cases h : kv.1 = k <;> simp [lookup?, List.find?_cons, h]

theorem lookup?_append_of_none (m1 m2 : BatchMap) (k : String)
    (h : lookup? m1 k = none) : lookup? (m1 ++ m2) k = lookup? m2 k := by
  induction m1 with
  | nil => rfl
  | cons kv m1 ih =>
      rw [lookup?_cons] at h
      by_cases hk : kv.1 = k
      · simp [hk] at h
      · rw [if_neg hk] at h
        rw [List.cons_append, lookup?_cons, if_neg hk]
        exact ih h

theorem lookup?_singleton (k k' : String) (v : ItemRecord) :
    lookup? [(k, v)] k' = if k = k' then some v else none := by
  rw [lookup?_cons]; rfl

theorem mapKeys_mapSet (m : BatchMap) (k : String) (v : ItemRecord) :
    mapKeys (mapSet m k v) = mapKeys m := by
  induction m with
  | nil => rfl
  | cons kv m ih =>
      show mapKeys ((if kv.1 = k then (kv.1, v) else kv) :: mapSet m k v) = _
      by_cases h : kv.1 = k <;> simp [mapKeys, h] <;>
        simpa [mapKeys] using ih

theorem length_mapSet (m : BatchMap) (k : String) (v : ItemRecord) :
    (mapSet m k v).length = m.length := by
  simp [mapSet]

theorem lookup?_mapSet_self (m : BatchMap) (k : String) (v : ItemRecord)
    (h : (lookup? m k).isSome) : lookup? (mapSet m k v) k = some v := by
  induction m with
  | nil => simp [lookup?] at h
  | cons kv m ih =>
      show lookup? ((if kv.1 = k then (kv.1, v) else kv) :: mapSet m k v) k = some v
      by_cases hk : kv.1 = k
      · rw [if_pos hk, lookup?_cons, if_pos hk]
      · rw [lookup?_cons] at h
        rw [if_neg hk] at h ⊢
        rw [lookup?_cons, if_neg hk]
        exact ih h

theorem lookup?_mapSet_ne (m : BatchMap) (k k' : String) (v : ItemRecord)
    (h : k' ≠ k) : lookup? (mapSet m k v) k' = lookup? m k' := by
  induction m with
  | nil => rfl
  | cons kv m ih =>
      show lookup? ((if kv.1 = k then (kv.1, v) else kv) :: mapSet m k v) k' = _
      by_cases hk : kv.1 = k
      · rw [if_pos hk, lookup?_cons, lookup?_cons]
        have : ¬ kv.1 = k' := by rw [hk]; exact fun hh => h hh.symm
        simp only [this, if_neg, if_false]
        · exact ih
      · rw [if_neg hk, lookup?_cons, lookup?_cons]
        by_cases h2 : kv.1 = k' <;> simp [h2, ih]

theorem mapSet_eq_of_not_mem (m : BatchMap) (k : String) (v : ItemRecord)
    (h : k ∉ mapKeys m) : mapSet m k v = m := by
  induction m with
  | nil => rfl
  | cons kv m ih =>
      have h1 : kv.1 ≠ k := fun hh => h (by simp [mapKeys, hh])
      have h2 : k ∉ mapKeys m := fun hh => h (by simp [mapKeys]; right; simpa [mapKeys] using hh)
      show (if kv.1 = k then (kv.1, v) else kv) :: mapSet m k v = kv :: m
      rw [if_neg h1, ih h2]

theorem mem_lookup? (m : BatchMap) (kv : String × ItemRecord)
    (hnd : (mapKeys m).Nodup) (h : kv ∈ m) : lookup? m kv.1 = some kv.2 := by
  induction m with
  | nil => simp at h
  | cons kv0 m ih =>
      rw [List.mem_cons] at h
      rcases h with h | h
      · subst h; rw [lookup?_cons, if_pos rfl]
      · have hne : kv0.1 ≠ kv.1 := by
          intro hh
          have : kv.1 ∈ mapKeys m := List.mem_map_of_mem Prod.fst h
          rw [← hh] at this
          exact (List.nodup_cons.mp hnd).1 this
        rw [lookup?_cons, if_neg hne]
        exact ih (List.nodup_cons.mp hnd).2 h

theorem lookup?_isSome_of_mem_keys (m : BatchMap) (k : String)
    (h : k ∈ mapKeys m) : (lookup? m k).isSome := by
  induction m with
  | nil => simp [mapKeys] at h
  | cons kv m ih =>
      rw [lookup?_cons]
      by_cases hk : kv.1 = k
      · simp [hk]
      · rw [if_neg hk]
        rcases List.mem_cons.mp h with h1 | h1
        · exact absurd h1.symm hk
        · exact ih h1

theorem length_filter_bool_split {α : Type} (p : α → Bool) (l : List α) :
    (l.filter p).length + (l.filter (fun a => !(p a))).length = l.length := by
  induction l with
  | nil => rfl
  | cons a l ih =>
      by_cases h : p a <;> simp [List.filter_cons, h] <;> omega

/-! ## `printResults` lemmas -/

/-- When every surviving record is complete, `printResults` writes exactly
the non-failed identifiers, in dict order, and raises nothing. -/
theorem printResults_rows (m : BatchMap)
    (h : ∀ kv ∈ m, kv.2.failed = none → rowComplete kv.2) :
    printResults m = ((m.filter (fun kv => kv.2.failed = none)).map Prod.fst, none) := by
  induction m with
  | nil => rfl
  | cons kv m ih =>
      have hrest := ih (fun kv2 h2 => h kv2 (List.mem_cons_of_mem kv h2))
      by_cases hf : kv.2.failed.isSome
      · have hdec : (decide (kv.2.failed = none)) = false := by
          cases hh : kv.2.failed with
          | none => rw [hh] at hf; simp at hf
          | some b => simp [hh]
        have hstep : printResults (kv :: m) = printResults m := by
          show (if kv.2.failed.isSome then printResults m else _) = printResults m
          rw [if_pos hf]
        rw [hstep, hrest, List.filter_cons, hdec]
        simp
      · have hnone : kv.2.failed = none := by
          cases hh : kv.2.failed with
          | none => rfl
          | some b => rw [hh] at hf; simp at hf
        have hc := h kv (List.mem_cons_self kv m) hnone
        have hstep : printResults (kv :: m)
            = ((kv.1 :: (printResults m).1), (printResults m).2) := by
          show (if kv.2.failed.isSome then printResults m
              else if rowComplete kv.2 then
                ((kv.1 :: (printResults m).1), (printResults m).2)
              else ([], some "KeyError")) = _
          rw [if_neg hf, if_pos hc]
        rw [hstep, hrest, List.filter_cons]
        simp [hnone]

/-- Row-count conservation of `printResults`: when no exception is raised,
written rows plus failed records account for the whole dict. -/
theorem printResults_count (m : BatchMap) (h : (printResults m).2 = none) :
    (printResults m).1.length
        + (m.filter (fun kv => kv.2.failed.isSome)).length = m.length := by
  induction m with
  | nil => simp [printResults]
  | cons kv m ih =>
      by_cases hf : kv.2.failed.isSome
      · have hstep : printResults (kv :: m) = printResults m := by
          show (if kv.2.failed.isSome then printResults m else _) = printResults m
          rw [if_pos hf]
        rw [hstep] at h ⊢
        rw [List.filter_cons, if_pos (by simpa using hf)]
        have := ih h
        simp only [List.length_cons, List.length_cons]
        omega
      · by_cases hc : rowComplete kv.2
        · have hstep : printResults (kv :: m)
              = ((kv.1 :: (printResults m).1), (printResults m).2) := by
            show (if kv.2.failed.isSome then printResults m
                else if rowComplete kv.2 then
                  ((kv.1 :: (printResults m).1), (printResults m).2)
                else ([], some "KeyError")) = _
            rw [if_neg hf, if_pos hc]
          rw [hstep] at h ⊢
          rw [List.filter_cons, if_neg (by simpa using hf)]
          have := ih h
          simp only [List.length_cons]
          omega
        · have hstep : printResults (kv :: m) = ([], some "KeyError") := by
            show (if kv.2.failed.isSome then printResults m
                else if rowComplete kv.2 then
                  ((kv.1 :: (printResults m).1), (printResults m).2)
                else ([], some "KeyError")) = _
            rw [if_neg hf, if_neg hc]
          rw [hstep] at h
          simp at h

/-! ## Stage length lemmas -/

theorem siteEntities_length (es : List (String × List String)) (m m' : BatchMap)
    (h : siteEntities es m = .ok m') : m'.length = m.length := by
  induction es generalizing m with
  | nil => simp [siteEntities] at h; rw [h]
  | cons ent rest ih =>
      unfold siteEntities at h
      cases he : lookup? m ent.1 with
      | none => rw [he] at h; simp at h
      | some r =>
          rw [he] at h
          have := ih (mapSet m ent.1 (siteUpdate r ent.2)) h
          rw [this, length_mapSet]

theorem checkEntries_length (es : List (String × WdClaims)) (m m' : BatchMap)
    (h : checkEntries es m = .ok m') : m'.length = m.length := by
  induction es generalizing m with
  | nil => simp [checkEntries] at h; rw [h]
  | cons ent rest ih =>
      unfold checkEntries at h
      cases he : lookup? m ent.1 with
      | none => rw [he] at h; simp at h
      | some r =>
          rw [he] at h
          have := ih (mapSet m ent.1 (r.applyCheck (parseItemCheck ent.2))) h
          rw [this, length_mapSet]

theorem itemFallbackLoop_length (env : RemoteEnv) (todo : List (String × ItemRecord))
    (acc : BatchMap) (log : List String) :
    (itemFallbackLoop env todo acc log).1.length = acc.length := by
  induction todo generalizing acc log with
  | nil => rfl
  | cons kv rest ih =>
      show (itemFallbackLoop env rest
          (mapSet acc kv.1 (updateWithOutcome kv.1 kv.2 (checkQualityByItem env kv.1 kv.2).1))
          (log ++ (checkQualityByItem env kv.1 kv.2).2)).1.length = acc.length
      rw [ih, length_mapSet]

theorem checkQualityByBatch_length (env : RemoteEnv) (m : BatchMap) :
    (checkQualityByBatch env m).1.length = m.length := by
  unfold checkQualityByBatch
  cases hc : checkConstraints (env.checkResp (mapKeys m)) m with
  | ok m2 =>
      unfold checkConstraints at hc
      cases hr : env.checkResp (mapKeys m) with
      | error e => rw [hr] at hc; simp at hc
      | ok entries =>
          rw [hr] at hc
          exact checkEntries_length entries m m2 hc
  | error e => exact itemFallbackLoop_length env m m _

theorem oresScores_length (itemIds : List (String × String))
    (scores : List (String × OresProbability)) (m m' : BatchMap)
    (h : oresScores itemIds scores m = .ok m') : m'.length = m.length := by
  induction scores generalizing m with
  | nil => simp [oresScores] at h; rw [h]
  | cons sc rest ih =>
      unfold oresScores at h
      cases h1 : strLookup itemIds sc.1 with
      | none => rw [h1] at h; simp at h
      | some itemId =>
          rw [h1] at h
          replace h :
              (match lookup? m itemId with
                | none => (Except.error "KeyError" : Except String BatchMap)
                | some r =>
                    oresScores itemIds rest
                      (mapSet m itemId { r with ores_score := some (oresScore sc.2) }))
                = Except.ok m' := h
          cases h2 : lookup? m itemId with
          | none => rw [h2] at h; simp at h
          | some r =>
              rw [h2] at h
              have := ih (mapSet m itemId { r with ores_score := some (oresScore sc.2) }) h
              rw [this, length_mapSet]

theorem fetchOresScore_length (env : RemoteEnv) (m m' : BatchMap) (lg : List String)
    (h : fetchOresScore env m = .ok (m', lg)) : m'.length = m.length := by
  unfold fetchOresScore at h
  cases h1 : revidIndex m [] with
  | error e => rw [h1] at h; simp at h
  | ok itemIds =>
      rw [h1] at h
      replace h :
          (match env.oresResp (itemIds.map Prod.fst) with
            | none =>
                (Except.ok (m, ["no ORES scores found for items "
                    ++ String.intercalate "|" (itemIds.map Prod.fst)])
                  : Except String (BatchMap × List String))
            | some scores =>
                match oresScores itemIds scores m with
                | .error e => .error e
                | .ok m2 => .ok (m2, [])) = Except.ok (m', lg) := h
      cases h2 : env.oresResp (itemIds.map Prod.fst) with
      | none =>
          rw [h2] at h
          simp at h
          rw [← h.1]
      | some scores =>
          rw [h2] at h
          replace h :
              (match oresScores itemIds scores m with
                | .error e => (.error e : Except String (BatchMap × List String))
                | .ok m2 => .ok (m2, [])) = Except.ok (m', lg) := h
          cases h3 : oresScores itemIds scores m with
          | error e => rw [h3] at h; simp at h
          | ok m2 =>
              rw [h3] at h
              simp at h
              rw [← h.1]
              exact oresScores_length itemIds scores m m2 h3

/-! ## The per-item fallback loop -/

theorem mapSet_append (m1 m2 : BatchMap) (k : String) (v : ItemRecord) :
    mapSet (m1 ++ m2) k v = mapSet m1 k v ++ mapSet m2 k v := by
  simp [mapSet]

theorem itemFallbackLoop_log (env : RemoteEnv) (todo : List (String × ItemRecord))
    (acc : BatchMap) (log : List String) :
    ∃ tail, (itemFallbackLoop env todo acc log).2 = log ++ tail := by
  induction todo generalizing acc log with
  | nil => exact ⟨[], by simp [itemFallbackLoop]⟩
  | cons kv rest ih =>
      obtain ⟨tail, ht⟩ := ih
        (mapSet acc kv.1 (updateWithOutcome kv.1 kv.2 (checkQualityByItem env kv.1 kv.2).1))
        (log ++ (checkQualityByItem env kv.1 kv.2).2)
      exact ⟨(checkQualityByItem env kv.1 kv.2).2 ++ tail, by
        show (itemFallbackLoop env rest _ _).2 = _
        rw [ht, List.append_assoc]⟩

/-- The fallback loop, started on the whole batch dict with `done` already
processed in front, rewrites each remaining record to its per-item outcome
and leaves `done` untouched. -/
theorem itemFallbackLoop_eq (env : RemoteEnv) (todo done : BatchMap) (log : List String)
    (hnd : (todo.map Prod.fst).Nodup)
    (hdisj : ∀ k ∈ todo.map Prod.fst, k ∉ mapKeys done) :
    (itemFallbackLoop env todo (done ++ todo) log).1
      = done ++ todo.map (fun kv =>
          (kv.1, updateWithOutcome kv.1 kv.2 (checkQualityByItem env kv.1 kv.2).1)) := by
  induction todo generalizing done log with
  | nil => simp [itemFallbackLoop]
  | cons kv rest ih =>
      have hk_done : kv.1 ∉ mapKeys done := hdisj kv.1 (by simp)
      have hk_rest : kv.1 ∉ rest.map Prod.fst := (List.nodup_cons.mp hnd).1
      have hnd' : (rest.map Prod.fst).Nodup := (List.nodup_cons.mp hnd).2
      have hset : mapSet (done ++ kv :: rest) kv.1
            (updateWithOutcome kv.1 kv.2 (checkQualityByItem env kv.1 kv.2).1)
          = (done ++ [(kv.1, updateWithOutcome kv.1 kv.2 (checkQualityByItem env kv.1 kv.2).1)])
              ++ rest := by
        rw [mapSet_append, mapSet_eq_of_not_mem done kv.1 _ hk_done]
        show done ++ ((if kv.1 = kv.1 then (kv.1, _) else kv) :: mapSet rest kv.1 _) = _
        rw [if_pos rfl, mapSet_eq_of_not_mem rest kv.1 _ hk_rest]
        simp
      have hdisj' : ∀ k ∈ rest.map Prod.fst,
          k ∉ mapKeys (done ++ [(kv.1, updateWithOutcome kv.1 kv.2
            (checkQualityByItem env kv.1 kv.2).1)]) := by
        intro k hk hmem
        rw [mapKeys, List.map_append] at hmem
        rcases List.mem_append.mp hmem with h1 | h1
        · exact hdisj k (List.mem_cons_of_mem _ hk) h1
        · simp at h1
          rw [h1] at hk
          exact hk_rest hk
      show (itemFallbackLoop env rest (mapSet (done ++ kv :: rest) kv.1 _) (log ++ _)).1 = _
      rw [hset, ih _ _ hnd' hdisj']
      simp

theorem mapKeys_mapStep (m : BatchMap) (g : String × ItemRecord → ItemRecord) :
    mapKeys (m.map (fun kv => (kv.1, g kv))) = mapKeys m := by
  simp [mapKeys]

theorem lookup?_mapStep (m : BatchMap) (g : String × ItemRecord → ItemRecord)
    (kv : String × ItemRecord) (hnd : (mapKeys m).Nodup) (h : kv ∈ m) :
    lookup? (m.map (fun kv => (kv.1, g kv))) kv.1 = some (g kv) := by
  induction m with
  | nil => simp at h
  | cons kv0 m ih =>
      rcases List.mem_cons.mp h with h1 | h1
      · subst h1
        show lookup? ((kv.1, g kv) :: _) kv.1 = _
        rw [lookup?_cons, if_pos rfl]
      · have hne : kv0.1 ≠ kv.1 := by
          intro hh
          have : kv.1 ∈ mapKeys m := List.mem_map_of_mem Prod.fst h1
          rw [← hh] at this
          exact (List.nodup_cons.mp hnd).1 this
        show lookup? ((kv0.1, g kv0) :: _) kv.1 = _
        rw [lookup?_cons, if_neg hne]
        exact ih (List.nodup_cons.mp hnd).2 h1

/-- The whole-batch failure branch of `checkQualityByBatch`: with unique
keys, the result rewrites each record to its per-item retry outcome. -/
theorem checkQualityByBatch_fallback_eq (env : RemoteEnv) (m : BatchMap) (e : String)
    (hnd : (mapKeys m).Nodup)
    (hb : env.checkResp (mapKeys m) = .error e) :
    (checkQualityByBatch env m).1
      = m.map (fun kv =>
          (kv.1, updateWithOutcome kv.1 kv.2 (checkQualityByItem env kv.1 kv.2).1)) := by
  unfold checkQualityByBatch
  rw [hb]
  show (itemFallbackLoop env m ([] ++ m) _).1 = _
  rw [itemFallbackLoop_eq env m [] _ hnd (by intro k hk hmem; simp [mapKeys] at hmem)]
  simp

theorem checkQualityByBatch_fallback_log (env : RemoteEnv) (m : BatchMap) (e : String)
    (hb : env.checkResp (mapKeys m) = .error e) :
    (checkQualityByBatch env m).2.take 3
      = ["failed to check quality constraints on items "
            ++ String.intercalate "|" (mapKeys m),
          "now checking them one-by-one", e] := by
  unfold checkQualityByBatch
  rw [hb]
  show (itemFallbackLoop env m m
      ["failed to check quality constraints on items "
          ++ String.intercalate "|" (mapKeys m),
        "now checking them one-by-one", e]).2.take 3 = _
  obtain ⟨tail, ht⟩ := itemFallbackLoop_log env m m
    ["failed to check quality constraints on items "
        ++ String.intercalate "|" (mapKeys m),
      "now checking them one-by-one", e]
  rw [ht]
  rfl

/-! ## Per-item retry outcomes -/

theorem checkQualityByItem_err (env : RemoteEnv) (itemId : String) (r : ItemRecord)
    (e1 : String) (h : env.checkResp [itemId] = .error e1) :
    checkQualityByItem env itemId r
      = (.failedMarker, ["failed to check quality constraints on item " ++ itemId, e1]) := by
  unfold checkQualityByItem checkConstraints
  rw [h]

theorem checkQualityByItem_ok (env : RemoteEnv) (itemId : String) (r : ItemRecord)
    (c : WdClaims) (h : env.checkResp [itemId] = .ok [(itemId, c)]) :
    checkQualityByItem env itemId r
      = (.checked [(itemId, r.applyCheck (parseItemCheck c))], []) := by
  have h1 : checkEntries [(itemId, c)] [(itemId, r)]
      = .ok [(itemId, r.applyCheck (parseItemCheck c))] := by
    unfold checkEntries
    rw [lookup?_singleton, if_pos rfl]
    show checkEntries [] (mapSet [(itemId, r)] itemId (r.applyCheck (parseItemCheck c))) = _
    unfold checkEntries
    simp [mapSet]
  unfold checkQualityByItem checkConstraints
  rw [h]
  show (match checkEntries [(itemId, c)] [(itemId, r)] with
      | .error e => (ItemCheckOutcome.failedMarker,
          ["failed to check quality constraints on item " ++ itemId, e])
      | .ok m1 => (ItemCheckOutcome.checked m1, [])) = _
  rw [h1]

theorem updateWithOutcome_failed (itemId : String) (r : ItemRecord) :
    updateWithOutcome itemId r .failedMarker = { r with failed := some true } := rfl

theorem updateWithOutcome_checked (itemId : String) (r r1 : ItemRecord) :
    updateWithOutcome itemId r (.checked [(itemId, r1)])
      = { r1 with selfEntries := r1.selfEntries ++ [itemId] } := by
  show (let rG := (lookup? [(itemId, r1)] itemId).getD r
      { rG with selfEntries := rG.selfEntries ++ [itemId] }) = _
  rw [lookup?_singleton, if_pos rfl]
  rfl

theorem applyCheck_selfEntries (r : ItemRecord) (c : CheckCounts) :
    (r.applyCheck c).selfEntries = r.selfEntries := rfl

/-- Shape of a single-item constraint-check response: either the call raises,
or it returns exactly the queried item.  (The conjuncts of the claim theorem
below are conditional on which of the two happened.) -/
def itemRespWellFormed : Except String (List (String × WdClaims)) → String → Bool
  | .error _, _ => true
  | .ok entries, k =>
      match entries with
      | [(k1, _)] => k1 = k
      | _ => false

/-- Each record's per-item retry outcome, resolved by the response shape. -/
theorem step_value (env : RemoteEnv) (kv : String × ItemRecord)
    (hw : itemRespWellFormed (env.checkResp [kv.1]) kv.1 = true) :
    (∃ e1, env.checkResp [kv.1] = .error e1 ∧
        updateWithOutcome kv.1 kv.2 (checkQualityByItem env kv.1 kv.2).1
          = { kv.2 with failed := some true }) ∨
      (∃ c, env.checkResp [kv.1] = .ok [(kv.1, c)] ∧
        updateWithOutcome kv.1 kv.2 (checkQualityByItem env kv.1 kv.2).1
          = { kv.2.applyCheck (parseItemCheck c) with
                selfEntries := kv.2.selfEntries ++ [kv.1] }) := by
  cases hres : env.checkResp [kv.1] with
  | error e1 =>
      left
      refine ⟨e1, rfl, ?_⟩
      rw [checkQualityByItem_err env kv.1 kv.2 e1 hres]
      rfl
  | ok entries =>
      rw [hres] at hw
      cases entries with
      | nil => simp [itemRespWellFormed] at hw
      | cons x xs =>
          cases xs with
          | cons y ys => simp [itemRespWellFormed] at hw
          | nil =>
              obtain ⟨k1, c⟩ := x
              have hk : k1 = kv.1 := by simpa [itemRespWellFormed] using hw
              subst hk
              right
              refine ⟨c, rfl, ?_⟩
              rw [checkQualityByItem_ok env kv.1 kv.2 c hres]
              show updateWithOutcome kv.1 kv.2
                  (ItemCheckOutcome.checked [(kv.1, kv.2.applyCheck (parseItemCheck c))]) = _
              rw [updateWithOutcome_checked, applyCheck_selfEntries]

theorem rowComplete_success (r : ItemRecord) (c : CheckCounts) (ids : List String)
    (hs : r.statements.isSome = true) (ht : r.total_sitelinks.isSome = true)
    (hw : r.wikipedia_sitelinks.isSome = true) (ho : r.ores_score.isSome = true) :
    rowComplete { r.applyCheck c with selfEntries := ids } = true := by
  simp [rowComplete, ItemRecord.applyCheck, hs, ht, hw, ho]

/-- C1: when the whole-batch constraint-check call fails, the failure is
logged ("failed to check ...", "now checking them one-by-one", the error) and
every identifier of the batch is retried through the single-identifier call
path: an identifier whose retry also fails has its record marked with the
`failed` key and does not appear in the written output rows, while one whose
retry succeeds has its violation counters populated from the parsed response
and does appear in the output rows.  The hypotheses say that the batch keys
are unique, that the batch call raised, that every single-item response is
either an error or exactly the queried item, and that each record already
carries the other fields the row printer reads (in the script `ores_score`
is merged in between this stage and printing; placing it on the records
beforehand changes neither the fallback nor the printer, which only test
key presence). -/
theorem checkQualityByBatch_fallback_spec (env : RemoteEnv) (m : BatchMap) (e : String)
    (hnd : (mapKeys m).Nodup)
    (hb : env.checkResp (mapKeys m) = .error e)
    (hitems : ∀ kv ∈ m, itemRespWellFormed (env.checkResp [kv.1]) kv.1 = true)
    (hbase : ∀ kv ∈ m, kv.2.failed = none ∧ kv.2.statements.isSome = true
        ∧ kv.2.total_sitelinks.isSome = true ∧ kv.2.wikipedia_sitelinks.isSome = true
        ∧ kv.2.ores_score.isSome = true) :
    (checkQualityByBatch env m).2.take 3
        = ["failed to check quality constraints on items "
              ++ String.intercalate "|" (mapKeys m),
            "now checking them one-by-one", e] ∧
      ∀ kv ∈ m,
        (∀ e1, env.checkResp [kv.1] = .error e1 →
            lookup? (checkQualityByBatch env m).1 kv.1
                = some { kv.2 with failed := some true } ∧
              kv.1 ∉ (printResults (checkQualityByBatch env m).1).1) ∧
        (∀ c, env.checkResp [kv.1] = .ok [(kv.1, c)] →
            lookup? (checkQualityByBatch env m).1 kv.1
                = some { kv.2.applyCheck (parseItemCheck c) with
                           selfEntries := kv.2.selfEntries ++ [kv.1] } ∧
              kv.1 ∈ (printResults (checkQualityByBatch env m).1).1) := by
  have hmap := checkQualityByBatch_fallback_eq env m e hnd hb
  have hndStep : (mapKeys (m.map (fun kv =>
      (kv.1, updateWithOutcome kv.1 kv.2 (checkQualityByItem env kv.1 kv.2).1)))).Nodup := by
    rw [mapKeys_mapStep]
    exact hnd
  have hcomplete : ∀ kv1 ∈ m.map (fun kv =>
        (kv.1, updateWithOutcome kv.1 kv.2 (checkQualityByItem env kv.1 kv.2).1)),
      kv1.2.failed = none → rowComplete kv1.2 = true := by
    intro kv1 hkv1 hfail
    obtain ⟨kv, hkvm, hkv1eq⟩ := List.mem_map.mp hkv1
    rcases step_value env kv (hitems kv hkvm) with ⟨e1, hres, heq⟩ | ⟨c, hres, heq⟩
    · rw [← hkv1eq] at hfail
      simp only [heq] at hfail
      simp at hfail
    · rw [← hkv1eq]
      simp only [heq]
      obtain ⟨hf, hs, ht, hwp, ho⟩ := hbase kv hkvm
      exact rowComplete_success kv.2 (parseItemCheck c) _ hs ht hwp ho
  have hrows := printResults_rows _ hcomplete
  constructor
  · exact checkQualityByBatch_fallback_log env m e hb
  · intro kv hkvm
    constructor
    · intro e1 hres
      have hval : updateWithOutcome kv.1 kv.2 (checkQualityByItem env kv.1 kv.2).1
          = { kv.2 with failed := some true } := by
        rw [checkQualityByItem_err env kv.1 kv.2 e1 hres]
        rfl
      constructor
      · rw [hmap, lookup?_mapStep m _ kv hnd hkvm, hval]
      · intro hmem
        rw [hmap, hrows] at hmem
        obtain ⟨kv2, hkv2, hkey⟩ := List.mem_map.mp hmem
        have hkv2m := List.mem_of_mem_filter hkv2
        have hlk := mem_lookup? _ kv2 hndStep hkv2m
        rw [hkey, lookup?_mapStep m _ kv hnd hkvm, hval] at hlk
        have hinj : ({ kv.2 with failed := some true } : ItemRecord) = kv2.2 :=
          Option.some.inj hlk
        have hfailkv2 : kv2.2.failed = some true := by rw [← hinj]
        have hpred := List.of_mem_filter hkv2
        rw [hfailkv2] at hpred
        simp at hpred
    · intro c hres
      have hval : updateWithOutcome kv.1 kv.2 (checkQualityByItem env kv.1 kv.2).1
          = { kv.2.applyCheck (parseItemCheck c) with
                selfEntries := kv.2.selfEntries ++ [kv.1] } := by
        rw [checkQualityByItem_ok env kv.1 kv.2 c hres]
        show updateWithOutcome kv.1 kv.2
            (ItemCheckOutcome.checked [(kv.1, kv.2.applyCheck (parseItemCheck c))]) = _
        rw [updateWithOutcome_checked, applyCheck_selfEntries]
      constructor
      · rw [hmap, lookup?_mapStep m _ kv hnd hkvm, hval]
      · rw [hmap, hrows]
        have hmemStep : (kv.1, updateWithOutcome kv.1 kv.2 (checkQualityByItem env kv.1 kv.2).1)
            ∈ m.map (fun kv =>
              (kv.1, updateWithOutcome kv.1 kv.2 (checkQualityByItem env kv.1 kv.2).1)) :=
          List.mem_map_of_mem _ hkvm
        have hfail : (updateWithOutcome kv.1 kv.2 (checkQualityByItem env kv.1 kv.2).1).failed
            = none := by
          rw [hval]
          show (kv.2.applyCheck (parseItemCheck c)).failed = none
          show kv.2.failed = none
          exact (hbase kv hkvm).1
        have hmemFilter : (kv.1, updateWithOutcome kv.1 kv.2 (checkQualityByItem env kv.1 kv.2).1)
            ∈ (m.map (fun kv =>
                (kv.1, updateWithOutcome kv.1 kv.2 (checkQualityByItem env kv.1 kv.2).1))).filter
                  (fun kv => kv.2.failed = none) := by
          apply List.mem_filter.mpr
          exact ⟨hmemStep, by simp [hfail]⟩
        exact List.mem_map.mpr ⟨_, hmemFilter, rfl⟩

/-! ## Concrete scenarios -/

instance {ε α : Type} [DecidableEq ε] [DecidableEq α] : DecidableEq (Except ε α) :=
  fun x y =>
    match x, y with
    | .error a, .error b =>
        if h : a = b then .isTrue (h ▸ rfl)
        else .isFalse fun hh => h (Except.error.inj hh)
    | .ok a, .ok b =>
        if h : a = b then .isTrue (h ▸ rfl)
        else .isFalse fun hh => h (Except.ok.inj hh)
    | .error _, .ok _ => .isFalse fun hh => Except.noConfusion hh
    | .ok _, .error _ => .isFalse fun hh => Except.noConfusion hh

/-- A record as it stands right before the constraint stage in the claim-C1
setting: statement, sitelink and score fields present, no counters yet. -/
def preCheckRecord (revid : Int) (n : Nat) : ItemRecord :=
  ⟨some revid, some n, some 3, some 2, none, none, none, none, none, some 1, none, []⟩

def fallbackMapW : BatchMap :=
  [("Q1", preCheckRecord 11 5), ("Q2", preCheckRecord 22 6)]

/-- Environment for the C1 witness: the whole-batch constraint call fails,
Q1 succeeds on individual retry, Q2 fails again. -/
def fallbackEnvW : RemoteEnv :=
  { stmtResp := fun _ => .ok []
    siteResp := fun _ => none
    checkResp := fun ids =>
      if ids = ["Q1"] then .ok [("Q1", .dict [])] else .error "batch down"
    oresResp := fun _ => none }

/-- Witness for C1: in the two-item batch, retried Q1 is written, retried
Q2 is marked failed and excluded. -/
theorem checkQualityByBatch_fallback_spec_witness :
    lookup? (checkQualityByBatch fallbackEnvW fallbackMapW).1 "Q2"
        = some { preCheckRecord 22 6 with failed := some true } ∧
      ("Q2" ∉ (printResults (checkQualityByBatch fallbackEnvW fallbackMapW).1).1 ∧
        "Q1" ∈ (printResults (checkQualityByBatch fallbackEnvW fallbackMapW).1).1) := by
  have h := checkQualityByBatch_fallback_spec fallbackEnvW fallbackMapW "batch down"
    (by decide) (by decide) (by decide) (by decide)
  have h2 := (h.2 ("Q2", preCheckRecord 22 6) (by decide)).1 "batch down" (by decide)
  have h1 := (h.2 ("Q1", preCheckRecord 11 5) (by decide)).2 (WdClaims.dict []) (by decide)
  exact ⟨h2.1, h2.2, h1.2⟩

/-- Environment for the enricher-failure scenario: the sitelink response for
the batch [Q1] lacks the `entities` container; the batch [Q2] is fully
served by every service. -/
def siteMissingEnv : RemoteEnv :=
  { stmtResp := fun ids =>
      if ids = ["Q1"] then .ok [⟨"Q1", some 3, 11⟩] else .ok [⟨"Q2", some 4, 22⟩]
    siteResp := fun ids => if ids = ["Q1"] then none else some [("Q2", ["enwiki"])]
    checkResp := fun _ => .ok [("Q2", .dict [])]
    oresResp := fun _ => some [("22", [(OresClass.E, 1)])] }

/-- C3 counterexample: with the first batch's sitelink response missing the
`entities` container, the run stops with the raised exception and writes no
row at all -- the second batch is never processed -- although that second
batch on its own runs through and is written.  The orchestrator does not
advance to the next batch: `main` has no exception handling. -/
theorem mainLoop_enricher_failure_counterexample :
    mainLoop siteMissingEnv [["Q1"], ["Q2"]]
        = ([], some "could not find sitelinks for items") ∧
      mainLoop siteMissingEnv [["Q2"]] = (["Q2"], none) := by
  decide

/-- C3 (amended): when the sitelink-enricher stage of a batch raises, that
batch is abandoned with zero items counted, and the exception propagates out
of the batch loop uncaught: the run terminates, processing none of the
remaining batches (instead of advancing to the next batch). -/
theorem mainLoop_enricher_failure_aborts (env : RemoteEnv) (ids : List String)
    (rest : List (List String)) (m0 : BatchMap) (lg : List String) (e : String)
    (hstmt : fetchNumberOfStatements env ids = .ok (m0, lg))
    (hsite : fetchNumberOfSitelinks env m0 = .error e) :
    mainLoop env (ids :: rest) = ([], some e) := by
  have hp : processBatch env ids = .error e := by
    unfold processBatch
    simp only [hstmt, hsite]
  unfold mainLoop
  simp only [hp]

/-- Witness for the amended C3 at the concrete two-batch scenario. -/
theorem mainLoop_enricher_failure_aborts_witness :
    mainLoop siteMissingEnv [["Q1"], ["Q2"]]
      = ([], some "could not find sitelinks for items") :=
  mainLoop_enricher_failure_aborts siteMissingEnv ["Q1"] [["Q2"]]
    [("Q1", baseRecord 11 3)] [] "could not find sitelinks for items"
    (by decide) (by decide)

/-- Environment for the missing-ORES-container scenario: one item fully live
through the first three stages, then an ORES response without the
`wikidatawiki` container. -/
def oresMissingEnv : RemoteEnv :=
  { stmtResp := fun _ => .ok [⟨"Q1", some 12, 777⟩]
    siteResp := fun _ => some [("Q1", ["enwiki", "commonswiki"])]
    checkResp := fun _ => .ok [("Q1", .dict [])]
    oresResp := fun _ => none }

/-- C4 (code bug): `fetchOresScore` handles the missing container gracefully
-- it logs and returns the batch unscored, as the claim says -- but
`printResults` then reads the absent `ores_score` key of every surviving
record, so the batch's rows are NOT written: the run raises a `KeyError`
instead of writing rows with the score omitted or defaulted. -/
theorem oresMissing_blocks_output :
    processBatch oresMissingEnv ["Q1"]
        = .ok ([("Q1",
              ⟨some 777, some 12, some 2, some 1, some 0, some 0, some 0, some 0,
                none, none, none, []⟩)],
            ["no ORES scores found for items 777"]) ∧
      mainLoop oresMissingEnv [["Q1"]] = ([], some "KeyError") := by
  decide

/-! ## Batch conservation (claim C5) -/

theorem stmtPages_length (pages : List WdPage) (acc : BatchMap) (log : List String)
    (hnd : (pages.map WdPage.title).Nodup)
    (hfresh : ∀ p ∈ pages, lookup? acc p.title = none) :
    (stmtPages pages acc log).1.length
      = acc.length + (pages.filter (fun p => p.pageprops.isSome)).length := by
  induction pages generalizing acc log with
  | nil => simp [stmtPages]
  | cons p rest ih =>
      have hnd' : (rest.map WdPage.title).Nodup := (List.nodup_cons.mp hnd).2
      cases hp : p.pageprops with
      | none =>
          have hstep : stmtPages (p :: rest) acc log
              = stmtPages rest acc
                  (log ++ ["Item " ++ p.title ++ " does not exist or is a redirect."]) := by
            show (match p.pageprops with
                | none => stmtPages rest acc
                    (log ++ ["Item " ++ p.title ++ " does not exist or is a redirect."])
                | some claims =>
                    stmtPages rest (mapInsert acc p.title (baseRecord p.revid claims)) log) = _
            rw [hp]
          rw [hstep, ih _ _ hnd' (fun q hq => hfresh q (List.mem_cons_of_mem p hq))]
          rw [List.filter_cons]
          simp [hp]
      | some claims =>
          have hins : mapInsert acc p.title (baseRecord p.revid claims)
              = acc ++ [(p.title, baseRecord p.revid claims)] := by
            unfold mapInsert
            rw [hfresh p (List.mem_cons_self p rest)]
            simp
          have hstep : stmtPages (p :: rest) acc log
              = stmtPages rest (acc ++ [(p.title, baseRecord p.revid claims)]) log := by
            show (match p.pageprops with
                | none => stmtPages rest acc
                    (log ++ ["Item " ++ p.title ++ " does not exist or is a redirect."])
                | some claims =>
                    stmtPages rest (mapInsert acc p.title (baseRecord p.revid claims)) log) = _
            rw [hp]
            show stmtPages rest (mapInsert acc p.title (baseRecord p.revid claims)) log = _
            rw [hins]
          have hfresh' : ∀ q ∈ rest,
              lookup? (acc ++ [(p.title, baseRecord p.revid claims)]) q.title = none := by
            intro q hq
            have hne : p.title ≠ q.title := by
              intro hh
              have : q.title ∈ rest.map WdPage.title := List.mem_map_of_mem WdPage.title hq
              rw [← hh] at this
              exact (List.nodup_cons.mp hnd).1 this
            rw [lookup?_append_of_none acc _ q.title (hfresh q (List.mem_cons_of_mem p hq))]
            rw [lookup?_singleton, if_neg hne]
          rw [hstep, ih _ _ hnd' hfresh']
          rw [List.filter_cons]
          simp [hp]
          omega

/-- C5: per batch, written rows plus identifiers marked failed plus
identifiers dropped as missing/redirected at the statement-fetch stage add
up to the batch's input identifiers.  Hypotheses: the lookup service answers
with one page per queried identifier (titles in request order), identifiers
are unique in the batch, the batch runs through without an uncaught
exception, and printing raises no `KeyError` (every surviving record is
complete). -/
theorem batch_conservation (env : RemoteEnv) (ids : List String) (pages : List WdPage)
    (m3 : BatchMap) (lg : List String) (rows : List String)
    (h1 : env.stmtResp ids = .ok pages)
    (h2 : pages.map WdPage.title = ids)
    (h3 : ids.Nodup)
    (hrun : processBatch env ids = .ok (m3, lg))
    (hrows : printResults m3 = (rows, none)) :
    rows.length + (m3.filter (fun kv => kv.2.failed.isSome)).length
        + (pages.filter (fun p => !p.pageprops.isSome)).length = ids.length := by
  have hstmt2 : fetchNumberOfStatements env ids = .ok (stmtPages pages [] []) := by
    unfold fetchNumberOfStatements
    rw [h1]
  unfold processBatch at hrun
  rw [hstmt2] at hrun
  cases hsite : fetchNumberOfSitelinks env (stmtPages pages [] []).1 with
  | error e => simp only [hsite] at hrun; simp at hrun
  | ok m1 =>
      simp only [hsite] at hrun
      cases hq : checkQualityByBatch env m1 with
      | mk m2 log2 =>
          simp only [hq] at hrun
          cases hores : fetchOresScore env m2 with
          | error e => simp only [hores] at hrun; simp at hrun
          | ok mo =>
              simp only [hores] at hrun
              have hm3 : mo.1 = m3 := by
                cases mo with
                | mk mA logA => simp at hrun; exact hrun.1
              have l1 : mo.1.length = m2.length :=
                fetchOresScore_length env m2 mo.1 mo.2 (by rw [hores])
              have l2 : m2.length = m1.length := by
                have := checkQualityByBatch_length env m1
                rw [hq] at this
                exact this
              have l3 : m1.length = (stmtPages pages [] []).1.length := by
                unfold fetchNumberOfSitelinks at hsite
                cases hresp : env.siteResp (mapKeys (stmtPages pages [] []).1) with
                | none => rw [hresp] at hsite; simp at hsite
                | some entities =>
                    rw [hresp] at hsite
                    exact siteEntities_length entities _ m1 hsite
              have l4 : (stmtPages pages [] []).1.length
                  = (pages.filter (fun p => p.pageprops.isSome)).length := by
                have := stmtPages_length pages [] []
                  (by rw [h2]; exact h3) (fun p hp => rfl)
                simpa using this
              have l5 := printResults_count m3 (by rw [hrows])
              rw [hrows] at l5
              simp only at l5
              have l6 := length_filter_bool_split
                (fun p : WdPage => p.pageprops.isSome) pages
              have l7 : pages.length = ids.length := by rw [← h2]; simp
              have hm3len : m3.length = mo.1.length := by rw [hm3]
              omega

/-! ## C5 witness scenario: one dropped, one written, one failed -/

def consPages : List WdPage :=
  [⟨"Q1", none, 0⟩, ⟨"Q2", some 5, 100⟩, ⟨"Q3", some 6, 200⟩]

def consEnv : RemoteEnv :=
  { stmtResp := fun _ => .ok consPages
    siteResp := fun _ => some [("Q2", ["enwiki"]), ("Q3", [])]
    checkResp := fun ids =>
      if ids = ["Q2"] then .ok [("Q2", .dict [])] else .error "boom"
    oresResp := fun _ => some [("100", [(OresClass.A, 1)])] }

def consM3 : BatchMap :=
  [("Q2", ⟨some 100, some 5, some 1, some 1, some 0, some 0, some 0, some 0,
      none, some (oresScore [(OresClass.A, 1)]), none, ["Q2"]⟩),
    ("Q3", ⟨some 200, some 6, some 0, some 0, none, none, none, none,
      none, none, some true, []⟩)]

def consLg : List String :=
  ["Item Q1 does not exist or is a redirect.",
    "failed to check quality constraints on items Q2|Q3",
    "now checking them one-by-one", "boom",
    "failed to check quality constraints on item Q3", "boom"]

/-- Witness for C5 at the spec's end-to-end scenario: Q1 redirected (dropped),
Q2 recovered through the per-item fallback (written), Q3 failing even
per-item (excluded): 1 + 1 + 1 = 3. -/
theorem batch_conservation_witness :
    (["Q2"] : List String).length
        + (consM3.filter (fun kv => kv.2.failed.isSome)).length
        + (consPages.filter (fun p => !p.pageprops.isSome)).length
      = (["Q1", "Q2", "Q3"] : List String).length :=
  batch_conservation consEnv ["Q1", "Q2", "Q3"] consPages consM3 consLg ["Q2"]
    (by decide) (by decide) (by decide) (by rfl) (by decide)

/-! ## Sitelink counts (claim C9) -/

/-- C9: every record the sitelink enricher writes satisfies
`wikipedia_sitelinks ≤ total_sitelinks`: the Wikipedia count is the size of
a filtered subset of the same sitelink mapping whose size is the total. -/
theorem siteUpdate_wikipedia_le_total (r : ItemRecord) (sitelinks : List String) :
    ∃ t w, (siteUpdate r sitelinks).total_sitelinks = some t ∧
      (siteUpdate r sitelinks).wikipedia_sitelinks = some w ∧ w ≤ t :=
  ⟨sitelinks.length, (sitelinks.filter isWikipediaSitelink).length, rfl, rfl,
    List.length_filter_le _ _⟩

/-! ## Identifier source (claim C8) -/

/-- The section sizes of `numpy.array_split(xs, n)`: `extras = len % n`
sections of size `len / n + 1` first, then `n - extras` of size `len / n`. -/
def arraySplitSizes (len n : Nat) : List Nat :=
  List.replicate (len % n) (len / n + 1) ++ List.replicate (n - len % n) (len / n)

def splitBySizes {α : Type} : List Nat → List α → List (List α)
  | [], _ => []
  | s :: rest, xs => xs.take s :: splitBySizes rest (xs.drop s)

def array_split {α : Type} (xs : List α) (n : Nat) : List (List α) :=
  splitBySizes (arraySplitSizes xs.length n) xs

/-- The batching of `queryItemsFromFile`:
`numberOfBatches = len(lines) // batchSize + 1`, then `numpy.array_split`. -/
def fileBatches {α : Type} (batchSize : Nat) (lines : List α) : List (List α) :=
  array_split lines (lines.length / batchSize + 1)

/-- `generateRandomItemIds`, with the random draws supplied as a stream
consumed in order: id number `i` of a run is `Q` followed by draw `i`. -/
def generateRandomItemIds (draw : Nat → Nat) (drawPos numberofItems : Nat) :
    List String :=
  (List.range numberofItems).map (fun i => "Q" ++ toString (draw (drawPos + i)))

/-- The `while counter < numberOfItems` loop of `queryRandomItems`: generate
`min(batchSize, numberOfItems - counter)` fresh ids, fetch their statement
counts, and advance the counter by the number of FETCHED RESULTS (not of
generated ids).  `fuel` bounds the unrolling of the unbounded source loop; a
raised fetch exception ends the run. -/
def queryRandomItemsLoop (env : RemoteEnv) (draw : Nat → Nat)
    (batchSize numberOfItems : Nat) :
    Nat → Nat → Nat → List (List String × BatchMap)
  | _, _, 0 => []
  | counter, drawPos, fuel + 1 =>
      if counter < numberOfItems then
        match fetchNumberOfStatements env (generateRandomItemIds draw drawPos
            (min batchSize (numberOfItems - counter))) with
        | .error _ => []
        | .ok res =>
            (generateRandomItemIds draw drawPos (min batchSize (numberOfItems - counter)),
                res.1)
              :: queryRandomItemsLoop env draw batchSize numberOfItems
                (counter + res.1.length)
                (drawPos + (generateRandomItemIds draw drawPos
                  (min batchSize (numberOfItems - counter))).length) fuel
      else []

theorem splitBySizes_flatten {α : Type} (sizes : List Nat) (xs : List α) :
    (splitBySizes sizes xs).flatten = xs.take sizes.sum := by
  induction sizes generalizing xs with
  | nil => simp [splitBySizes]
  | cons s rest ih =>
      show (xs.take s :: splitBySizes rest (xs.drop s)).flatten = _
      rw [List.flatten_cons, ih, List.sum_cons, List.take_add xs s rest.sum]

theorem arraySplitSizes_sum (len n : Nat) (hn : 0 < n) :
    (arraySplitSizes len n).sum = len := by
  have hmn : len % n ≤ n := le_of_lt (Nat.mod_lt _ hn)
  unfold arraySplitSizes
  rw [List.sum_append]
  rw [List.sum_replicate, List.sum_replicate, smul_eq_mul, smul_eq_mul]
  have expand : len % n * (len / n + 1) + (n - len % n) * (len / n)
      = (len % n + (n - len % n)) * (len / n) + len % n := by
    rw [Nat.mul_succ, Nat.add_mul]
    omega
  rw [expand, Nat.add_sub_cancel' hmn]
  exact Nat.div_add_mod len n

theorem arraySplitSizes_le (len b : Nat) (hb : 1 ≤ b) (s : Nat)
    (hs : s ∈ arraySplitSizes len (len / b + 1)) : s ≤ b := by
  have hq : len / (len / b + 1) < b := by
    rw [Nat.div_lt_iff_lt_mul (Nat.succ_pos _)]
    have h2 : b * (len / b) + len % b = len := Nat.div_add_mod len b
    have h3 : len % b < b := Nat.mod_lt len hb
    calc len < b * (len / b) + b := by omega
    _ = b * (len / b + 1) := by rw [Nat.mul_succ]
  unfold arraySplitSizes at hs
  rcases List.mem_append.mp hs with h | h
  · have := List.eq_of_mem_replicate h
    omega
  · have := List.eq_of_mem_replicate h
    omega

theorem splitBySizes_mem_length {α : Type} (sizes : List Nat) (xs : List α)
    (batch : List α) (h : batch ∈ splitBySizes sizes xs) :
    ∃ s ∈ sizes, batch.length ≤ s := by
  induction sizes generalizing xs with
  | nil => simp [splitBySizes] at h
  | cons s rest ih =>
      rcases List.mem_cons.mp h with h1 | h1
      · exact ⟨s, List.mem_cons_self s rest, by rw [h1]; simpa using List.length_take_le s xs⟩
      · obtain ⟨s2, hs2, hlen⟩ := ih (xs.drop s) h1
        exact ⟨s2, List.mem_cons_of_mem s hs2, hlen⟩

theorem generateRandomItemIds_length (draw : Nat → Nat) (drawPos n : Nat) :
    (generateRandomItemIds draw drawPos n).length = n := by
  simp [generateRandomItemIds]

/-- Under a fetch that never drops an identifier, the random source loop
covers exactly `numberOfItems - counter` further generated identifiers, in
batches of at most `batchSize`. -/
theorem queryRandomItemsLoop_noDrop (env : RemoteEnv) (draw : Nat → Nat)
    (b numberOfItems : Nat) (hb : 1 ≤ b)
    (hkeep : ∀ ids, ∃ p, fetchNumberOfStatements env ids = .ok p
        ∧ p.1.length = ids.length) :
    ∀ fuel counter drawPos, counter ≤ numberOfItems → numberOfItems - counter ≤ fuel →
      (((queryRandomItemsLoop env draw b numberOfItems counter drawPos fuel).map
            (fun pr => pr.1.length)).sum = numberOfItems - counter) ∧
        ∀ pr ∈ queryRandomItemsLoop env draw b numberOfItems counter drawPos fuel,
          pr.1.length ≤ b := by
  intro fuel
  induction fuel with
  | zero =>
      intro counter drawPos hc hf
      have : numberOfItems = counter := by omega
      simp [queryRandomItemsLoop, this]
  | succ fuel ih =>
      intro counter drawPos hc hf
      by_cases hlt : counter < numberOfItems
      · obtain ⟨p, hp, hplen⟩ := hkeep
          (generateRandomItemIds draw drawPos (min b (numberOfItems - counter)))
        have hstep : queryRandomItemsLoop env draw b numberOfItems counter drawPos (fuel + 1)
            = (generateRandomItemIds draw drawPos (min b (numberOfItems - counter)), p.1)
                :: queryRandomItemsLoop env draw b numberOfItems (counter + p.1.length)
                  (drawPos + (generateRandomItemIds draw drawPos
                    (min b (numberOfItems - counter))).length) fuel := by
          show (if counter < numberOfItems then _ else []) = _
          rw [if_pos hlt]
          show (match fetchNumberOfStatements env (generateRandomItemIds draw drawPos
              (min b (numberOfItems - counter))) with
            | .error _ => []
            | .ok res =>
                (generateRandomItemIds draw drawPos (min b (numberOfItems - counter)), res.1)
                  :: queryRandomItemsLoop env draw b numberOfItems (counter + res.1.length)
                    (drawPos + (generateRandomItemIds draw drawPos
                      (min b (numberOfItems - counter))).length) fuel) = _
          rw [hp]
        have hn1 : 1 ≤ min b (numberOfItems - counter) := by omega
        have hplen2 : p.1.length = min b (numberOfItems - counter) := by
          rw [hplen, generateRandomItemIds_length]
        have hrec := ih (counter + p.1.length)
          (drawPos + (generateRandomItemIds draw drawPos
            (min b (numberOfItems - counter))).length)
          (by omega) (by omega)
        constructor
        · rw [hstep]
          simp only [List.map_cons, List.sum_cons]
          rw [hrec.1, generateRandomItemIds_length]
          omega
        · intro pr hpr
          rw [hstep] at hpr
          rcases List.mem_cons.mp hpr with h1 | h1
          · rw [h1]
            simp [generateRandomItemIds_length]
          · exact hrec.2 pr h1
      · have heq : counter = numberOfItems := by omega
        have : queryRandomItemsLoop env draw b numberOfItems counter drawPos (fuel + 1) = [] := by
          show (if counter < numberOfItems then _ else []) = []
          rw [if_neg hlt]
        rw [this]
        simp [heq]

theorem fileBatches_spec {α : Type} (b : Nat) (hb : 1 ≤ b) (lines : List α) :
    (fileBatches b lines).flatten = lines ∧
      ∀ batch ∈ fileBatches b lines, batch.length ≤ b := by
  constructor
  · unfold fileBatches array_split
    rw [splitBySizes_flatten,
      arraySplitSizes_sum lines.length (lines.length / b + 1) (Nat.succ_pos _)]
    exact List.take_length lines
  · intro batch hmem
    obtain ⟨s, hs, hlen⟩ := splitBySizes_mem_length _ lines batch hmem
    exact le_trans hlen (arraySplitSizes_le lines.length b hb s hs)

/-- C8 (amended): file mode splits the input lines into
`len(lines) / batchSize + 1` nearly-equal contiguous batches, each of size at
most the batch size, covering every line (not batch-size-sized chunks with
only the last smaller); random mode generates `min(batchSize, remaining)`
identifiers per round and stops once the cumulative count of FETCHED results
reaches the configured total, so it covers exactly that many generated
identifiers when the fetch drops nothing (and more when identifiers are
dropped or merged). -/
theorem identifierSource_batching_amended (b : Nat) (hb : 1 ≤ b) :
    (∀ (lines : List String),
        (fileBatches b lines).flatten = lines ∧
          ∀ batch ∈ fileBatches b lines, batch.length ≤ b) ∧
      (∀ (env : RemoteEnv) (draw : Nat → Nat) (numberOfItems fuel : Nat),
        (∀ ids, ∃ p, fetchNumberOfStatements env ids = .ok p
            ∧ p.1.length = ids.length) →
        numberOfItems ≤ fuel →
        (((queryRandomItemsLoop env draw b numberOfItems 0 0 fuel).map
              (fun pr => pr.1.length)).sum = numberOfItems) ∧
          ∀ pr ∈ queryRandomItemsLoop env draw b numberOfItems 0 0 fuel,
            pr.1.length ≤ b) := by
  constructor
  · exact fun lines => fileBatches_spec b hb lines
  · intro env draw numberOfItems fuel hkeep hfuel
    have h := queryRandomItemsLoop_noDrop env draw b numberOfItems hb hkeep
      fuel 0 0 (Nat.zero_le _) (by omega)
    simpa using h

def linesTen : List String := ["a", "b", "c", "d", "e", "f", "g", "h", "i", "j"]

/-- Environment for the random-mode counterexample: the first generated
identifier (Q0) is dropped by the lookup service, every later one is kept. -/
def dropFirstEnv : RemoteEnv :=
  { stmtResp := fun ids =>
      if ids = ["Q0"] then .ok [] else .ok [⟨"Q1", some 1, 1⟩]
    siteResp := fun _ => none
    checkResp := fun _ => .error "unused"
    oresResp := fun _ => none }

/-- C8 counterexample.  File mode: ten lines at batch size ten are split into
TWO batches of five (`numpy.array_split(lines, 10 // 10 + 1)`), so a
non-last batch has size five, not the configured size.  Random mode: with
one requested identifier at batch size one, a dropped first identifier makes
the loop generate a second one -- two generated identifiers, not one; the
last conjunct shows the loop had genuinely terminated (more fuel changes
nothing). -/
theorem identifierSource_batching_counterexample :
    ((fileBatches 10 linesTen).map List.length = [5, 5]) ∧
      ¬ (∀ i (h : i < (fileBatches 10 linesTen).length),
          i + 1 < (fileBatches 10 linesTen).length →
            ((fileBatches 10 linesTen).get ⟨i, h⟩).length = 10) ∧
      (((queryRandomItemsLoop dropFirstEnv (fun i => i) 1 1 0 0 2).map
            (fun pr => pr.1.length)).sum = 2) ∧
      (queryRandomItemsLoop dropFirstEnv (fun i => i) 1 1 0 0 3
        = queryRandomItemsLoop dropFirstEnv (fun i => i) 1 1 0 0 2) := by
  refine ⟨by decide, ?_, by decide, by decide⟩
  intro hcl
  exact absurd (hcl 0 (by decide) (by decide)) (by decide)

/-- Witness for the amended C8 at batch size two and three input lines. -/
theorem identifierSource_batching_amended_witness :
    (fileBatches 2 ["a", "b", "c"]).flatten = ["a", "b", "c"] := by
  have h := identifierSource_batching_amended 2 (by decide)
  exact (h.1 ["a", "b", "c"]).1
